import Mathlib

/-!
Shallow embedding of `ansible_risk_insight/dependency_dir_preparator.py`:
the dependency resolution and directory-staging orchestrator.  Python
strings are Lean `String`s, dynamically typed dataclass fields are `PyVal`,
the metadata sidecar files on disk are an association list from path to
parsed content, and external collaborators (subprocess downloaders, hashing,
the dependency finder, `os.path` queries) are oracles collected in `Env`.
Side effects (subprocess invocations, directory creation, file writes,
warnings) are recorded in an effect log inside the run state `St`; raised
Python exceptions are `Except.error`.
-/

set_option maxRecDepth 10000

/-- PyVal models a dynamically typed Python value stored in a dataclass
field: the fields of `DownloadMetadata` hold strings, except the
`cache_enabled` flag which holds a bool, and `setattr` may store either. -/
inductive PyVal where
  | str (s : String)
  | bool (b : Bool)
deriving DecidableEq, Repr

/-- Rendering of a `PyVal` by Python `str.format`. -/
def PyVal.fmt : PyVal → String
  | .str s => s
  | .bool b => if b then "True" else "False"

/-- Python equality test between a dynamically typed value and a string
(`dm.name == target`): a bool never equals a string. -/
def PyVal.eqStr : PyVal → String → Bool
  | .str s, t => s == t
  | .bool _, _ => false

/-- Worker for `pySplit`, structurally recursive on a fuel bound so that
the kernel can evaluate it (each step consumes at least one character, so
any fuel above the input length is enough). -/
def pySplitAux (sep : List Char) : Nat → List Char → List Char → List (List Char)
  | 0, l, acc => [acc.reverse ++ l]
  | fuel + 1, l, acc =>
    match l with
    | [] => [acc.reverse]
    | c :: rest =>
      if sep.isPrefixOf l then acc.reverse :: pySplitAux sep fuel (l.drop sep.length) []
      else pySplitAux sep fuel rest (c :: acc)

/-- Python `s.split(sep)` for a non-empty separator (every separator in
this module is non-empty): greedy left-to-right scan, keeping empty
segments, never returning an empty list. -/
def pySplit (s sep : String) : List String :=
  if sep.data.isEmpty then [s]
  else (pySplitAux sep.data (s.data.length + 1) s.data []).map String.mk

/-- Worker for `pyReplace`, fuel-bounded like `pySplitAux`. -/
def pyReplaceAux (pat rep : List Char) : Nat → List Char → List Char
  | 0, l => l
  | fuel + 1, l =>
    match l with
    | [] => []
    | c :: rest =>
      if pat.isPrefixOf l then rep ++ pyReplaceAux pat rep fuel (l.drop pat.length)
      else c :: pyReplaceAux pat rep fuel rest

/-- Python `s.replace(pat, rep)` for a non-empty pattern: replaces every
occurrence, left to right. -/
def pyReplace (s pat rep : String) : String :=
  if pat.data.isEmpty then s
  else String.mk (pyReplaceAux pat.data rep.data (s.data.length + 1) s.data)

/-- Is the pattern an infix of the list. -/
def listInfix (pat : List Char) : List Char → Bool
  | [] => pat.isEmpty
  | c :: rest => pat.isPrefixOf (c :: rest) || listInfix pat rest

/-- Python `s.startswith(pre)`. -/
def pyStartsWith (s pre : String) : Bool := pre.data.isPrefixOf s.data

/-- Python `s.endswith(suf)`. -/
def pyEndsWith (s suf : String) : Bool := suf.data.isSuffixOf s.data

/-- Python `sep.join(parts)`. -/
def pyIntercalate (sep : String) : List String → String
  | [] => ""
  | [x] => x
  | x :: xs => x ++ sep ++ pyIntercalate sep xs

/-- Last element of a split result (`parts[-1]`); split results are never
empty so the default is never used. -/
def lastD (l : List String) : String := l.getLastD ""

/-- First element of a split result (`parts[0]`). -/
def headD (l : List String) : String := l.headD ""

/-- Python `pat in s` substring test. -/
def strContains (s pat : String) : Bool :=
  pat == "" || listInfix pat.data s.data

/-- Python `s.rsplit("/", 1)[0]`: everything before the last slash, or the
whole string when there is no slash. -/
def rsplitHead (s : String) : String :=
  let parts := pySplit s "/"
  if parts.length == 1 then s else pyIntercalate "/" parts.dropLast

/-- Python `str.splitlines` for newline-separated text: like splitting on
a newline but without a trailing empty line. -/
def splitlines (s : String) : List String :=
  if s == "" then []
  else
    let parts := pySplit s "\n"
    if parts.getLast? == some "" then parts.dropLast else parts

/-- Model of `os.path.join` for two components: a later absolute component
replaces everything before it. -/
def pjoin (a b : String) : String :=
  if pyStartsWith b "/" then b
  else if a == "" then b
  else if pyEndsWith a "/" then a ++ b
  else a ++ "/" ++ b

/-- Decidable equality of fallible results. -/
instance {ε α : Type} [DecidableEq ε] [DecidableEq α] : DecidableEq (Except ε α) := fun a b =>
  match a, b with
  | .ok x, .ok y =>
    if h : x = y then isTrue (by rw [h]) else isFalse (by intro hc; cases hc; exact h rfl)
  | .error x, .error y =>
    if h : x = y then isTrue (by rw [h]) else isFalse (by intro hc; cases hc; exact h rfl)
  | .ok _, .error _ => isFalse (by intro hc; cases hc)
  | .error _, .ok _ => isFalse (by intro hc; cases hc)

/-- Model of `os.path.join` for three components. -/
def pjoin3 (a b c : String) : String := pjoin (pjoin a b) c

/-- Model of `os.path.join` for four components. -/
def pjoin4 (a b c d : String) : String := pjoin (pjoin3 a b c) d

/-- Modelled from the spec: the `LoadType` enumeration lives in
`models.py`, which is not under `src/`; spec section 3 gives the kinds
`collection|role|project|playbook|unknown`, each rendered as that word
when used as a string (path component, metadata `type` field). -/
inductive LType where
  | project
  | collection
  | role
  | playbook
  | unknown
deriving DecidableEq, Repr

/-- String value of a `LoadType` member. -/
def LType.str : LType → String
  | .project => "project"
  | .collection => "collection"
  | .role => "role"
  | .playbook => "playbook"
  | .unknown => "unknown"

/-- Name of the metadata sidecar file (`download_meta.json`). -/
def download_metadata_file : String := "download_meta.json"

/-- Name of the requirements file (`requirements.yml`). -/
def requirements_yml : String := "requirements.yml"

/-- The `DownloadMetadata` dataclass: one record per fetched artifact.
Defaults mirror the dataclass defaults (empty strings, `False` for
`cache_enabled`). -/
structure DownloadMetadata where
  name : PyVal := .str ""
  type : PyVal := .str ""
  version : PyVal := .str ""
  author : PyVal := .str ""
  download_url : PyVal := .str ""
  download_src_path : PyVal := .str ""
  hash : PyVal := .str ""
  metafile_path : PyVal := .str ""
  files_json_path : PyVal := .str ""
  download_timestamp : PyVal := .str ""
  cache_enabled : PyVal := .bool false
  cache_dir : PyVal := .str ""
  source_repository : PyVal := .str ""
  requirements_file : PyVal := .str ""
deriving DecidableEq, Repr

/-- Python `hasattr(dm, key)` for a `DownloadMetadata` record. -/
def hasattrDM (key : String) : Bool :=
  key == "name" || key == "type" || key == "version" || key == "author" ||
  key == "download_url" || key == "download_src_path" || key == "hash" ||
  key == "metafile_path" || key == "files_json_path" ||
  key == "download_timestamp" || key == "cache_enabled" ||
  key == "cache_dir" || key == "source_repository" ||
  key == "requirements_file"

/-- Python `setattr(dm, key, value)` for a field of the record schema;
identity on unknown keys (only reached under a `hasattr` guard in the
source). -/
def setattrDM (d : DownloadMetadata) (key : String) (v : PyVal) : DownloadMetadata :=
  if key == "name" then { d with name := v }
  else if key == "type" then { d with type := v }
  else if key == "version" then { d with version := v }
  else if key == "author" then { d with author := v }
  else if key == "download_url" then { d with download_url := v }
  else if key == "download_src_path" then { d with download_src_path := v }
  else if key == "hash" then { d with hash := v }
  else if key == "metafile_path" then { d with metafile_path := v }
  else if key == "files_json_path" then { d with files_json_path := v }
  else if key == "download_timestamp" then { d with download_timestamp := v }
  else if key == "cache_enabled" then { d with cache_enabled := v }
  else if key == "cache_dir" then { d with cache_dir := v }
  else if key == "source_repository" then { d with source_repository := v }
  else if key == "requirements_file" then { d with requirements_file := v }
  else d

/-- Python `getattr(dm, key)` for a field of the record schema. -/
def getattrDM (d : DownloadMetadata) (key : String) : Option PyVal :=
  if key == "name" then some d.name
  else if key == "type" then some d.type
  else if key == "version" then some d.version
  else if key == "author" then some d.author
  else if key == "download_url" then some d.download_url
  else if key == "download_src_path" then some d.download_src_path
  else if key == "hash" then some d.hash
  else if key == "metafile_path" then some d.metafile_path
  else if key == "files_json_path" then some d.files_json_path
  else if key == "download_timestamp" then some d.download_timestamp
  else if key == "cache_enabled" then some d.cache_enabled
  else if key == "cache_dir" then some d.cache_dir
  else if key == "source_repository" then some d.source_repository
  else if key == "requirements_file" then some d.requirements_file
  else none

/-- Parsed content of a `download_meta.json` file: the JSON object
`{"collections": [...]}` or `{"roles": [...]}`; `dict.get` with a default
makes an absent key read as the empty list, so both lists are carried. -/
structure MetaFile where
  collections : List DownloadMetadata := []
  roles : List DownloadMetadata := []
deriving DecidableEq, Repr

/-- List selected by `metadata.get("collections"/"roles", [])` for a type;
`none` for the unsupported-type branch. -/
def MetaFile.listOf (ty : LType) (mf : MetaFile) : Option (List DownloadMetadata) :=
  match ty with
  | .collection => some mf.collections
  | .role => some mf.roles
  | _ => none

/-- Replacement of the list selected by a type (used when a file is
rewritten after an in-place update). -/
def MetaFile.setList (ty : LType) (mf : MetaFile) (l : List DownloadMetadata) : MetaFile :=
  match ty with
  | .collection => { mf with collections := l }
  | .role => { mf with roles := l }
  | _ => mf

/-- A metadata file built from a list of records for one type, as produced
by the two log parsers. -/
def MetaFile.ofList (ty : LType) (l : List DownloadMetadata) : MetaFile :=
  match ty with
  | .collection => { collections := l }
  | .role => { roles := l }
  | _ => {}

/-- The `Dependency` dataclass: one descriptor per resolved dependency. -/
structure Dependency where
  dir : String := ""
  name : String := ""
  metadata : DownloadMetadata := {}
deriving DecidableEq, Repr

/-- One entry of the galaxy `metadata` section supplied by the dependency
finder for a collection name (`download_url` and `version`, read with
`dict.get` defaults). -/
structure GalaxyMeta where
  download_url : String := ""
  version : String := ""
deriving DecidableEq, Repr

/-- A declared collection dependency: either a plain string or a dict with
`name`, `version` and `source` entries (missing entries read as ""). -/
inductive ColDep where
  | plain (s : String)
  | dict (name version source : String)
deriving DecidableEq, Repr

/-- A declared role dependency: either a plain string or a dict whose
`name` and `version` entries may be absent (`dict.get(..., None)`). -/
inductive RoleDep where
  | plain (s : String)
  | dict (name : Option String) (version : Option String)
deriving DecidableEq, Repr

/-- Result of the external dependency finder `find_dependency`:
declared dependencies, explicit path mappings and galaxy metadata. -/
structure DepsInfo where
  collections : List ColDep := []
  roles : List RoleDep := []
  colPaths : List (String × String) := []
  rolePaths : List (String × String) := []
  colMeta : List (String × GalaxyMeta) := []
deriving DecidableEq, Repr

/-- Observable side effects of a run, in order of occurrence. -/
inductive Effect where
  | makedirs (d : String)
  | fetchCollection (target outdir version repo : String)
  | fetchRole (target outdir : String) (version : Option String) (repo : String)
  | installTargz (file outdir : String)
  | installReqfile (req outdir : String)
  | copyDir (src dst : String)
  | exportFile (path : String)
  | warn (msg : String)
  | srcInstall
deriving DecidableEq, Repr

/-- Fetch invocations are the subprocess calls that download content:
`ansible-galaxy collection download`, `ansible-galaxy install` for roles,
and the root installer. -/
def Effect.isFetch : Effect → Bool
  | .fetchCollection _ _ _ _ => true
  | .fetchRole _ _ _ _ => true
  | .srcInstall => true
  | _ => false

/-- On-disk metadata files: path to parsed content, in creation order. -/
abbrev FS := List (String × MetaFile)

/-- Content of a metadata file, `none` when no such file exists. -/
def lookupFile : FS → String → Option MetaFile
  | [], _ => none
  | e :: rest, p => if e.1 == p then some e.2 else lookupFile rest p

/-- Is there a metadata file at the path. -/
def hasKey : FS → String → Bool
  | [], _ => false
  | e :: rest, p => e.1 == p || hasKey rest p

/-- Overwrite the content of an existing path. -/
def overwrite (p : String) (mf : MetaFile) : FS → FS
  | [] => []
  | e :: rest => (if e.1 == p then (p, mf) else e) :: overwrite p mf rest

/-- Overwrite-or-create a metadata file (`open(file, "w")` followed by a
`json.dump`). -/
def setFile (fs : FS) (p : String) (mf : MetaFile) : FS :=
  if hasKey fs p then overwrite p mf fs else fs ++ [(p, mf)]

/-- Run state: the metadata files on disk, the directories created by
`os.makedirs` during the run, the effect log, and the preparator's
`dependency_dirs` accumulator field (its only field mutated during the
dependency loop). -/
structure St where
  fs : FS := []
  mkdirs : List String := []
  effects : List Effect := []
  dependency_dirs : List Dependency := []
deriving DecidableEq, Repr

/-- Environment of oracles for the external world; all are fixed for a
run (single-threaded, no concurrent writers, per spec section 5). -/
structure Env where
  dirExists : String → Bool
  isDirF : String → Bool
  listdir : String → List String
  mtime : String → Option Nat
  utcIso : Nat → String
  hashOfUrl : String → String
  metafileInTarget : String → String × String
  authorOf : String → String
  dlCollectionMsg : String → String → String → String → String
  installRoleMsg : String → String → Option String → String → String
  findDep : String → String → String → DepsInfo
  isUrl : String → Bool
  isLocalPath : String → Bool
  installedMeta : String → String → String → String → String × String
  srcInstallFs : FS → Except String (FS × DownloadMetadata)

/-- Does a directory exist (`os.path.exists` on the directories this
module touches): it pre-existed or was created by `makedirs` this run.
Exported metadata files live in `St.fs` and are queried separately. -/
def pexists (env : Env) (st : St) (p : String) : Bool :=
  env.dirExists p || st.mkdirs.contains p

/-- Is the path a directory (`os.path.isdir`): pre-existing directories
according to the oracle, plus anything `makedirs` created this run. -/
def pisdir (env : Env) (st : St) (p : String) : Bool :=
  env.isDirF p || st.mkdirs.contains p

/-- Effect and state of `os.makedirs`. -/
def emakedirs (st : St) (d : String) : St :=
  { st with mkdirs := st.mkdirs ++ [d], effects := st.effects ++ [.makedirs d] }

/-- Append an effect to the log. -/
def addEff (st : St) (e : Effect) : St :=
  { st with effects := st.effects ++ [e] }

/-- Append a descriptor to the preparator's `dependency_dirs` field. -/
def addDep (st : St) (d : Dependency) : St :=
  { st with dependency_dirs := st.dependency_dirs ++ [d] }

/-- Sequencing of stateful computations that can raise: a raised exception
propagates, keeping the state at the raise point. -/
def ebind {α β : Type} (m : St × Except String α)
    (f : α → St → St × Except String β) : St × Except String β :=
  match m with
  | (st, Except.ok a) => f a st
  | (st, Except.error e) => (st, Except.error e)

/-- Linear scan of a loaded record list by exact name, first match wins
(`for data in metadata_list: dm = DownloadMetadata(**data); if dm.name ==
target: return dm`). -/
def findRec (target : String) : List DownloadMetadata → Option DownloadMetadata
  | [] => none
  | dm :: rest => if dm.name.eqStr target then some dm else findRec target rest

/-- Embedding of `find_target_metadata` (source lines 632-646): open the
metadata file (raising `FileNotFoundError` when absent), select the list
for the type (unsupported types log and return `None`), and return the
first record whose `name` equals the target, or `None`. -/
def find_target_metadata (fs : FS) (ty : LType) (metadata_file target : String) :
    Except String (Option DownloadMetadata) :=
  match lookupFile fs metadata_file with
  | none => Except.error "FileNotFoundError"
  | some metadata =>
    match metadata.listOf ty with
    | none => Except.ok none
    | some metadata_list =>
      Except.ok (findRec target metadata_list)

/-- Inner loop of `update_metadata`: for each record matching the target
name, set the field when the schema has it, put the record back into the
list and rewrite the whole file (the file is rewritten at every match,
with entries after the current one still in their original form). -/
def updWrite (ty : LType) (metadata_file : String) (mf : MetaFile)
    (target key : String) (value : PyVal) :
    List DownloadMetadata → List DownloadMetadata → FS → FS
  | _, [], fs => fs
  | done, dm :: rest, fs =>
    if dm.name.eqStr target then
      let dm2 := if hasattrDM key then setattrDM dm key value else dm
      let fs2 := setFile fs metadata_file (mf.setList ty (done ++ dm2 :: rest))
      updWrite ty metadata_file mf target key value (done ++ [dm2]) rest fs2
    else
      updWrite ty metadata_file mf target key value (done ++ [dm]) rest fs

/-- Embedding of `update_metadata` (source lines 742-765): load the file,
select the list for the type (unsupported types log and return without
writing), and run the update loop. -/
def update_metadata (fs : FS) (ty : LType) (metadata_file target key : String)
    (value : PyVal) : Except String FS :=
  match lookupFile fs metadata_file with
  | none => Except.error "FileNotFoundError"
  | some metadata =>
    match metadata.listOf ty with
    | none => Except.ok fs
    | some metadata_list =>
      Except.ok (updWrite ty metadata_file metadata target key value [] metadata_list fs)

/-- Embedding of `export_data` (source lines 703-710): create the
destination directory when absent, then write the serialized collection,
overwriting any previous file content. -/
def export_data (env : Env) (st : St) (data : MetaFile) (dir filename : String) :
    St × Except String String :=
  let st1 := if pexists env st dir then st else emakedirs st dir
  let file := pjoin dir filename
  let st2 := { st1 with fs := setFile st1.fs file data,
                        effects := st1.effects ++ [.exportFile file] }
  (st2, Except.ok file)

/-- Embedding of `move_src` (source lines 683-692): `ValueError` when the
source is empty, does not exist or is not a directory, or when the
destination is empty or has `".." in dst` (a substring test); otherwise a
recursive `cp` of the source content into the destination.  A `bool` held
in the source field behaves as file descriptor 0/1 under `os.path`, which
is never a directory, so it lands in the first error. -/
def move_src (env : Env) (st : St) (src : PyVal) (dst : String) :
    St × Except String Unit :=
  match src with
  | .bool _ => (st, Except.error ("src " ++ src.fmt ++ " is not directory"))
  | .str s =>
    if s == "" || !pexists env st s || !pisdir env st s then
      (st, Except.error ("src " ++ s ++ " is not directory"))
    else if dst == "" || strContains dst ".." then
      (st, Except.error ("dst " ++ dst ++ " is invalid"))
    else
      (addEff st (.copyDir s dst), Except.ok ())

/-- Matches of `re.findall(r"Downloading (.*) to", log_message)`: `.` does
not cross newlines, so each match lies within one line; within a line the
match starts after the first `"Downloading "` and the greedy group extends
to the last `" to"` after it, which also makes a second match on the same
line impossible. -/
def findallDownloading (log_message : String) : List String :=
  (pySplit log_message "\n").filterMap (fun line =>
    match pySplit line "Downloading " with
    | [] => none
    | [_] => none
    | _ :: r1 :: rs =>
      let rest := pyIntercalate "Downloading " (r1 :: rs)
      let segs := pySplit rest " to"
      if segs.length == 1 then none
      else some (pyIntercalate " to" segs.dropLast))

/-- Loop body of `extract_collections_metadata` over one regex match
(source lines 567-596).  `url.split("-")[1]` raises `IndexError` when the
URL has no hyphen; a missing downloaded archive logs a warning and then
`os.path.getmtime` raises anyway. -/
def extractColRecord (env : Env) (st : St) (download_location m : String) :
    St × Except String (Option DownloadMetadata) :=
  if pyEndsWith m "tar.gz" then
    let url := m
    let version := pyReplace (lastD (pySplit url "-")) ".tar.gz" ""
    match pySplit url "-" with
    | _ :: t1 :: _ =>
      let name := lastD (pySplit (headD (pySplit url "-")) "/") ++ "." ++ t1
      let filename := lastD (pySplit url "/")
      let fullpath := download_location ++ "/" ++ filename
      let st1 := if (env.mtime fullpath).isSome then st
                 else addEff st (.warn ("failed to get metadata for " ++ url))
      match env.mtime fullpath with
      | none => (st1, Except.error "FileNotFoundError")
      | some m_time =>
        let dt_m := env.utcIso m_time
        let mfp := env.metafileInTarget fullpath
        let author := env.authorOf mfp.1
        let hash := if url != "" then env.hashOfUrl url else ""
        let metadata : DownloadMetadata :=
          { type := .str LType.collection.str,
            download_url := .str url,
            version := .str version,
            name := .str name,
            download_timestamp := .str dt_m,
            download_src_path := .str fullpath,
            metafile_path := .str mfp.1,
            files_json_path := .str mfp.2,
            author := .str author,
            requirements_file := .str (download_location ++ "/" ++ requirements_yml),
            hash := if url != "" then .str hash else .str "" }
        (st1, Except.ok (some metadata))
    | _ => (st, Except.error "IndexError")
  else (st, Except.ok none)

/-- Fold of `extractColRecord` over the regex matches. -/
def extractColLoop (env : Env) (download_location : String) :
    List String → St → St × Except String (List DownloadMetadata)
  | [], st => (st, Except.ok [])
  | m :: rest, st =>
    ebind (extractColRecord env st download_location m) (fun rec1 st1 =>
      ebind (extractColLoop env download_location rest st1) (fun recs st2 =>
        match rec1 with
        | some r => (st2, Except.ok (r :: recs))
        | none => (st2, Except.ok recs)))

/-- Embedding of `extract_collections_metadata` (source lines 557-598). -/
def extract_collections_metadata (env : Env) (st : St)
    (log_message download_location : String) : St × Except String MetaFile :=
  ebind (extractColLoop env download_location (findallDownloading log_message) st)
    (fun metadata_list st1 => (st1, Except.ok { collections := metadata_list }))

/-- Line scan of `extract_roles_metadata` (source lines 607-628): sentinel
lines yield a record whose URL is the line's last space-token, whose
version is the URL's last path segment with `".tar.gz"` removed, and whose
name and directory come from the next line; `messages[i + 1]` raises
`IndexError` when the sentinel is the last line, and `os.path.getmtime`
raises when the extracted role directory does not exist. -/
def rolesGo (env : Env) : List String → St → St × Except String (List DownloadMetadata)
  | [], st => (st, Except.ok [])
  | line :: rest, st =>
    if pyStartsWith line "- downloading role from " then
      let url := lastD (pySplit line " ")
      let version := pyReplace (lastD (pySplit url "/")) ".tar.gz" ""
      match rest.head? with
      | none => (st, Except.error "IndexError")
      | some next =>
        let name := lastD (pySplit next "/")
        let role_dir := lastD (pySplit next " ")
        match env.mtime role_dir with
        | none => (st, Except.error "FileNotFoundError")
        | some m_time =>
          let metadata : DownloadMetadata :=
            { type := .str LType.role.str,
              download_url := .str url,
              version := .str version,
              name := .str name,
              download_timestamp := .str (env.utcIso m_time),
              download_src_path := .str role_dir,
              hash := if url != "" then .str (env.hashOfUrl url) else .str "" }
          ebind (rolesGo env rest st) (fun recs st1 =>
            (st1, Except.ok (metadata :: recs)))
    else rolesGo env rest st

/-- Embedding of `extract_roles_metadata` (source lines 600-630). -/
def extract_roles_metadata (env : Env) (st : St) (log_message : String) :
    St × Except String MetaFile :=
  ebind (rolesGo env (splitlines log_message) st) (fun metadata_list st1 =>
    (st1, Except.ok { roles := metadata_list }))

/-- Paths matched by
`glob.glob(os.path.join(dir, type, "**", download_metadata_file), recursive=True)`:
existing metadata files below `dir/type/`, in filesystem order (the pattern
with a recursive `**` also matches the file directly in `dir/type/`). -/
def globMeta (fs : FS) (dir tyStr : String) : List String :=
  (fs.map (fun e => e.1)).filter (fun p =>
    pyStartsWith p (pjoin dir tyStr ++ "/") && pyEndsWith p ("/" ++ download_metadata_file))

/-- Embedding of `is_download_file_exist` (source lines 527-544): scan all
metadata files under the directory for a record matching the target (the
last match wins and supplies the recorded archive path); with no metadata
files, fall back to scanning the directory listing for a
`<name-with-dashes>` tar.gz (`os.listdir` raises when the directory is
absent).  The loop over glob results cannot raise: every globbed path is a
file present in `fs`. -/
def is_download_file_exist (env : Env) (st : St) (ty : LType) (target dir : String) :
    Except String (Bool × PyVal) :=
  let download_metadata_files := globMeta st.fs dir ty.str
  if download_metadata_files.isEmpty then
    if !pexists env st dir then Except.error "FileNotFoundError"
    else
      let namepart := pyReplace target "." "-"
      Except.ok ((env.listdir dir).foldl (fun acc file =>
        if pyEndsWith file ".tar.gz" && strContains file namepart then (true, PyVal.str file)
        else acc) (false, PyVal.str ""))
  else
    Except.ok (download_metadata_files.foldl (fun acc metafile =>
      match find_target_metadata st.fs ty metafile target with
      | .ok (some md) => (true, md.download_src_path)
      | _ => acc) (false, PyVal.str ""))

/-- The mutable fields of the `DependencyDirPreparator` dataclass that the
modelled code reads or writes (besides the `dependency_dirs` accumulator,
which lives in `St`). -/
structure PrepSt where
  root_dir : String := ""
  source_repository : String := ""
  target_type : String := ""
  target_name : String := ""
  target_version : String := ""
  target_path : String := ""
  target_dependency_dir : String := ""
  metadata : DownloadMetadata := {}
  download_location : String := ""
  dependency_dir_path : String := ""
deriving DecidableEq, Repr

/-- Lookup in a Python dict modelled as an association list. -/
def alookup {α : Type} (l : List (String × α)) (k : String) : Option α :=
  (l.find? (fun e => e.1 == k)).map (fun e => e.2)

/-- Embedding of the collection branch of `prepare_dependency_dir`
(source lines 177-269): one loop iteration for one declared collection
dependency.  Branch priority: cache lookup when the cache is enabled,
else the finder's explicit path mapping, else the default download
location.  The cache and default branches compute the target directory
from the dot-split name, raising `IndexError` when the name has no dot;
in the cache branch a metadata record that could not be loaded raises
`AttributeError` when its `cache_dir` field is assigned. -/
def prepColDep (env : Env) (self : PrepSt) (deps : DepsInfo)
    (cache_enabled : Bool) (cache_dir : String) (cdep : ColDep) (st : St) :
    St × Except String Unit :=
  let cnv : String × String := match cdep with
    | .plain s => (s, "")
    | .dict n v source => (if n == "" then source else n, v)
  let col_name := cnv.1
  let col_version := cnv.2
  let dep0 : DownloadMetadata :=
    { name := .str col_name, type := .str LType.collection.str,
      cache_enabled := .bool cache_enabled }
  let sub_dependency_dir_path := pjoin3 self.dependency_dir_path "collections" "src"
  let st := if pexists env st sub_dependency_dir_path then st
            else emakedirs st sub_dependency_dir_path
  let branch : St × Except String Dependency :=
    if cache_enabled then
      match is_download_file_exist env st .collection col_name cache_dir with
      | .error e => (st, .error e)
      | .ok ietf =>
        let afterMd : St × Except String (Option DownloadMetadata × PyVal) :=
          if ietf.1 then
            match ietf.2 with
            | .bool _ => (st, .error "AttributeError")
            | .str targz_file =>
              let metadata_file := pjoin (rsplitHead targz_file) download_metadata_file
              match find_target_metadata st.fs .collection metadata_file col_name with
              | .error e => (st, .error e)
              | .ok md => (st, .ok (md, .str targz_file))
          else
            let cache_location := pjoin3 cache_dir "collection" col_name
            let install_msg := env.dlCollectionMsg col_name cache_location col_version
                self.source_repository
            let st := addEff st (.fetchCollection col_name cache_location col_version
                self.source_repository)
            ebind (extract_collections_metadata env st install_msg cache_location)
              (fun metadata st =>
            ebind (export_data env st metadata cache_location download_metadata_file)
              (fun metadata_file st =>
              match find_target_metadata st.fs .collection metadata_file col_name with
              | .error e => (st, .error e)
              | .ok md =>
                let targz := match md with
                  | some m => m.download_src_path
                  | none => ietf.2
                (st, .ok (md, targz))))
        ebind afterMd (fun mdtz st =>
          let st := addEff st (.installTargz mdtz.2.fmt sub_dependency_dir_path)
          match mdtz.1 with
          | none => (st, .error "AttributeError")
          | some m =>
            let m := { m with cache_dir := mdtz.2 }
            match pySplit col_name "." with
            | p0 :: p1 :: _ =>
              (st, .ok { dir := pjoin4 sub_dependency_dir_path "ansible_collections" p0 p1,
                         name := col_name, metadata := m })
            | _ => (st, .error "IndexError"))
    else
      match alookup deps.colPaths col_name with
      | some mapped =>
        let col_galaxy_data := (alookup deps.colMeta col_name).getD {}
        let download_url := col_galaxy_data.download_url
        let hash := if download_url != "" then env.hashOfUrl download_url else ""
        let version := col_galaxy_data.version
        (st, .ok { dir := mapped, name := col_name,
                   metadata := { dep0 with
                     source_repository := .str self.source_repository,
                     download_url := .str download_url,
                     hash := .str hash,
                     version := .str version } })
      | none =>
        let ddir := pjoin3 self.download_location "collection" col_name
        match is_download_file_exist env st .collection col_name ddir with
        | .error e => (st, .error e)
        | .ok ietg =>
          let afterMd : St × Except String (Option DownloadMetadata) :=
            if ietg.1 then
              let metadata_file := pjoin4 self.download_location "collection"
                  self.target_name download_metadata_file
              let st := addEff st (.installTargz ietg.2.fmt sub_dependency_dir_path)
              match find_target_metadata st.fs .collection metadata_file col_name with
              | .error e => (st, .error e)
              | .ok md => (st, .ok md)
            else
              let sub_download_location := ddir
              let st := if pexists env st sub_download_location then st
                        else emakedirs st sub_download_location
              let install_msg := env.dlCollectionMsg col_name sub_download_location
                  col_version self.source_repository
              let st := addEff st (.fetchCollection col_name sub_download_location
                  col_version self.source_repository)
              ebind (extract_collections_metadata env st install_msg sub_download_location)
                (fun metadata st =>
              ebind (export_data env st metadata sub_download_location download_metadata_file)
                (fun metadata_file st =>
                match find_target_metadata st.fs .collection metadata_file col_name with
                | .error e => (st, .error e)
                | .ok md =>
                  match md with
                  | some m =>
                    (addEff st (.installReqfile m.requirements_file.fmt
                        sub_dependency_dir_path), .ok (some m))
                  | none => (st, .ok none)))
          ebind afterMd (fun md st =>
            let dmeta := match md with
              | some m => m
              | none => dep0
            let dmeta := { dmeta with source_repository := .str self.source_repository }
            match pySplit col_name "." with
            | p0 :: p1 :: _ =>
              (st, .ok { dir := pjoin4 sub_dependency_dir_path "ansible_collections" p0 p1,
                         name := col_name, metadata := dmeta })
            | _ => (st, .error "IndexError"))
  ebind branch (fun d st => (addDep st d, Except.ok ()))

/-- Embedding of the role branch of `prepare_dependency_dir` (source
lines 271-342): one loop iteration for one declared role dependency.
Note two quirks carried over from the source: the cache branch looks up
the metadata record under the preparator's `target_name` rather than the
role's own name, and the cache branch copies the freshly created (empty)
role sub-directory into the cache location. -/
def prepRoleDep (env : Env) (self : PrepSt) (deps : DepsInfo)
    (cache_enabled : Bool) (cache_dir : String) (rdep : RoleDep) (st : St) :
    St × Except String Unit :=
  let nv : Option String × Option String := match rdep with
    | .plain s => (some s, none)
    | .dict n v => (n, v)
  let target_version := nv.2
  match nv.1 with
  | none => (st, Except.error "TypeError")
  | some name =>
    let dep0 : DownloadMetadata :=
      { name := .str name, type := .str LType.role.str,
        cache_enabled := .bool cache_enabled }
    let sub0 := pjoin4 self.dependency_dir_path "roles" "src" name
    let st := if pexists env st sub0 then st else emakedirs st sub0
    let branch : St × Except String (String × DownloadMetadata) :=
      if cache_enabled then
        let cache_dir_path := pjoin4 cache_dir "roles" "src" name
        let afterMd : St × Except String (Option DownloadMetadata) :=
          if pexists env st cache_dir_path && !(env.listdir cache_dir_path).isEmpty then
            let metadata_file := pjoin cache_dir_path download_metadata_file
            match find_target_metadata st.fs .role metadata_file self.target_name with
            | .error e => (st, .error e)
            | .ok md => (st, .ok md)
          else
            let install_msg := env.installRoleMsg name cache_dir_path target_version
                self.source_repository
            let st := addEff st (.fetchRole name cache_dir_path target_version
                self.source_repository)
            ebind (extract_roles_metadata env st install_msg) (fun metadata st =>
            ebind (export_data env st metadata cache_dir_path download_metadata_file)
              (fun metadata_file st =>
              match find_target_metadata st.fs .role metadata_file self.target_name with
              | .error e => (st, .error e)
              | .ok md => (st, .ok md)))
        ebind afterMd (fun md st =>
          ebind (move_src env st (.str sub0) cache_dir_path) (fun _ st =>
            let dmeta := match md with
              | some m => m
              | none => dep0
            (st, .ok (sub0, dmeta))))
      else
        match alookup deps.rolePaths name with
        | some mapped => (st, .ok (mapped, dep0))
        | none =>
          match is_download_file_exist env st .role name
              (pjoin3 self.download_location "role" name) with
          | .error e => (st, .error e)
          | .ok iep =>
            let afterMd : St × Except String (Option DownloadMetadata) :=
              if iep.1 then
                let metadata_file := pjoin4 self.download_location "role" name
                    download_metadata_file
                match find_target_metadata st.fs .role metadata_file name with
                | .error e => (st, .error e)
                | .ok md =>
                  match md with
                  | none => (st, .error "AttributeError")
                  | some m =>
                    ebind (move_src env st m.download_src_path sub0) (fun _ st =>
                      (st, .ok (some m)))
              else
                let install_msg := env.installRoleMsg name sub0 none self.source_repository
                let st := addEff st (.fetchRole name sub0 none self.source_repository)
                ebind (extract_roles_metadata env st install_msg) (fun metadata st =>
                let sub_download_location := pjoin3 self.download_location "role" name
                ebind (export_data env st metadata sub_download_location
                    download_metadata_file) (fun metadata_file st =>
                  match find_target_metadata st.fs .role metadata_file name with
                  | .error e => (st, .error e)
                  | .ok md => (st, .ok md)))
            ebind afterMd (fun md st =>
              let dmeta := match md with
                | some m => m
                | none => dep0
              (st, .ok (sub0, dmeta)))
    ebind branch (fun sd st =>
      let dmeta := { sd.2 with source_repository := .str self.source_repository }
      (addDep st { dir := sd.1, name := name, metadata := dmeta }, Except.ok ()))

/-- Loop over the declared collection dependencies. -/
def prepColDeps (env : Env) (self : PrepSt) (deps : DepsInfo)
    (cache_enabled : Bool) (cache_dir : String) :
    List ColDep → St → St × Except String Unit
  | [], st => (st, Except.ok ())
  | c :: rest, st =>
    ebind (prepColDep env self deps cache_enabled cache_dir c st) (fun _ st =>
      prepColDeps env self deps cache_enabled cache_dir rest st)

/-- Loop over the declared role dependencies. -/
def prepRoleDeps (env : Env) (self : PrepSt) (deps : DepsInfo)
    (cache_enabled : Bool) (cache_dir : String) :
    List RoleDep → St → St × Except String Unit
  | [], st => (st, Except.ok ())
  | r :: rest, st =>
    ebind (prepRoleDep env self deps cache_enabled cache_dir r st) (fun _ st =>
      prepRoleDeps env self deps cache_enabled cache_dir rest st)

/-- Embedding of `prepare_dependency_dir` (source lines 165-343): the
collections loop followed by the roles loop. -/
def prepare_dependency_dir (env : Env) (self : PrepSt) (deps : DepsInfo)
    (cache_enabled : Bool) (cache_dir : String) (st : St) : St × Except String Unit :=
  ebind (prepColDeps env self deps cache_enabled cache_dir deps.collections st)
    (fun _ st => prepRoleDeps env self deps cache_enabled cache_dir deps.roles st)

/-- Embedding of `setup_dirs` (source lines 122-134). -/
def setup_dirs (env : Env) (self : PrepSt) (cache_enabled : Bool) (cache_dir : String)
    (st : St) : PrepSt × St :=
  let self := { self with download_location := pjoin self.root_dir "archives",
                          dependency_dir_path := self.root_dir }
  let st := if pexists env st self.download_location then st
            else emakedirs st self.download_location
  let st := if cache_enabled && !pexists env st cache_dir then emakedirs st cache_dir
            else st
  let st := if pexists env st self.dependency_dir_path then st
            else emakedirs st self.dependency_dir_path
  (self, st)

/-- Embedding of `prepare_root_dir` (source lines 136-163).  The root
install path (`src_install`, source lines 345-423) drives external
subprocesses through a temporary staging directory; it is modelled as the
opaque environment transition `Env.srcInstallFs` yielding the updated
metadata-file state and the root metadata record.  No claim in this
development depends on its internals; the claims exercise the
`is_src_installed` and local-target paths, which are modelled exactly. -/
def prepare_root_dir (env : Env) (self : PrepSt) (root_install is_src_installed : Bool)
    (st : St) : St × Except String PrepSt :=
  if is_src_installed then (st, Except.ok self)
  else
    let ri := if self.target_type == LType.project.str && !env.isUrl self.target_name
              then false else root_install
    let ri := if (self.target_type == LType.collection.str
                  || self.target_type == LType.role.str)
                 && env.isLocalPath self.target_name
              then false else ri
    if ri then
      match env.srcInstallFs st.fs with
      | .error e => (st, .error e)
      | .ok fsmd =>
        ({ st with fs := fsmd.1, effects := st.effects ++ [.srcInstall] },
         Except.ok { self with metadata := fsmd.2 })
    else
      let uv := env.installedMeta self.target_type self.target_name self.target_path
          self.target_dependency_dir
      let hash := if uv.1 != "" then env.hashOfUrl uv.1 else ""
      (st, Except.ok { self with metadata := { self.metadata with
        download_url := .str uv.1, version := .str uv.2, hash := .str hash } })

/-- Embedding of `prepare_dir` (source lines 111-120): set up base
directories, prepare the root target, discover dependencies through the
external finder, drive the decision engine per dependency, and return the
`dependency_dirs` accumulator. -/
def prepare_dir (env : Env) (self : PrepSt)
    (root_install is_src_installed cache_enabled : Bool) (cache_dir : String)
    (st : St) : St × Except String (PrepSt × List Dependency) :=
  let ss := setup_dirs env self cache_enabled cache_dir st
  ebind (prepare_root_dir env ss.1 root_install is_src_installed ss.2) (fun self st =>
    let dependencies := env.findDep self.target_type self.target_path
        self.target_dependency_dir
    ebind (prepare_dependency_dir env self dependencies cache_enabled cache_dir st)
      (fun _ st => (st, Except.ok (self, st.dependency_dirs))))


/-- Base oracle environment for concrete test instances. -/
def baseEnv : Env where
  dirExists := fun _ => false
  isDirF := fun _ => false
  listdir := fun _ => []
  mtime := fun _ => none
  utcIso := fun n => "1970-01-01T00:00:" ++ toString n
  hashOfUrl := fun u => "sha256:" ++ u
  metafileInTarget := fun p => (p ++ "-MANIFEST.json", p ++ "-FILES.json")
  authorOf := fun _ => "alice"
  dlCollectionMsg := fun _ _ _ _ => ""
  installRoleMsg := fun _ _ _ _ => ""
  findDep := fun _ _ _ => {}
  isUrl := fun _ => false
  isLocalPath := fun _ => false
  installedMeta := fun _ _ _ _ => ("", "")
  srcInstallFs := fun fs => Except.ok (fs, {})

/-- Does a stateful result carry a raised exception. -/
def raised {α : Type} (m : St × Except String α) : Bool :=
  match m.2 with
  | .error _ => true
  | .ok _ => false

/-- Environment for the `move_src` counterexample: one existing
directory. -/
def envC8 : Env :=
  { baseEnv with dirExists := fun p => p == "/srcdir", isDirF := fun p => p == "/srcdir" }

/-- C8 counterexample: the claim says `move_src` raises only when the
destination contains a parent-directory traversal component `..`; but the
source tests `".." in dst` as a substring, so the destination
`/tmp/a..b` — whose path components are `tmp` and `a..b`, neither of them
`..` — is rejected even though the source exists and is a directory. -/
theorem c8_counterexample :
    (move_src envC8 {} (.str "/srcdir") "/tmp/a..b").2
        = Except.error "dst /tmp/a..b is invalid"
      ∧ (pySplit "/tmp/a..b" "/").contains ".." = false
      ∧ pexists envC8 {} "/srcdir" = true ∧ pisdir envC8 {} "/srcdir" = true := by
  exact ⟨by decide, by decide, by decide, by decide⟩

/-- C8 (amended): `move_src` raises exactly when the source path is
empty, does not exist or is not a directory, or the destination path is
empty or contains the substring `..` anywhere (not only as a path
component); otherwise it performs the copy and returns normally. -/
theorem c8_amended (env : Env) (st : St) (src dst : String) :
    (raised (move_src env st (.str src) dst) = true ↔
      src = "" ∨ pexists env st src = false ∨ pisdir env st src = false
        ∨ dst = "" ∨ strContains dst ".." = true)
    ∧ (raised (move_src env st (.str src) dst) = false →
        move_src env st (.str src) dst = (addEff st (.copyDir src dst), Except.ok ())) := by
  by_cases h1 : (src == "" || !pexists env st src || !pisdir env st src) = true
  · have h1e : (src = "" ∨ pexists env st src = false) ∨ pisdir env st src = false := by
      simpa using h1
    refine ⟨iff_of_true (by simp [move_src, raised, h1]) ?_, fun hf => ?_⟩
    · tauto
    · simp [move_src, raised, h1] at hf
  · have h1f := eq_false_of_ne_true h1
    have h1e : (¬src = "" ∧ pexists env st src = true) ∧ pisdir env st src = true := by
      simpa using h1f
    by_cases h2 : (dst == "" || strContains dst "..") = true
    · have h2e : dst = "" ∨ strContains dst ".." = true := by simpa using h2
      refine ⟨iff_of_true (by simp [move_src, raised, h1f, h2]) ?_, fun hf => ?_⟩
      · tauto
      · simp [move_src, raised, h1f, h2] at hf
    · have h2f := eq_false_of_ne_true h2
      have h2e : ¬dst = "" ∧ strContains dst ".." = false := by simpa using h2f
      refine ⟨iff_of_false (by simp [move_src, raised, h1f, h2f]) ?_, fun _ => ?_⟩
      · intro h
        rcases h with h | h | h | h | h
        · exact h1e.1.1 h
        · rw [h1e.1.2] at h; cases h
        · rw [h1e.2] at h; cases h
        · exact h2e.1 h
        · rw [h2e.2] at h; cases h
      · simp [move_src, h1f, h2f]

/-- C8 witness: a concrete non-error invocation performs the copy. -/
theorem c8_witness :
    move_src envC8 {} (.str "/srcdir") "/tmp/ok"
      = (addEff ({} : St) (.copyDir "/srcdir" "/tmp/ok"), Except.ok ()) :=
  (c8_amended envC8 {} "/srcdir" "/tmp/ok").2 (by decide)

/-- Environment for the unconditional-getmtime claim: the first archive in
the log was never downloaded, the second exists. -/
def envC9 : Env :=
  { baseEnv with mtime := fun p => if p == "/dl/aa-bb-2.0.0.tar.gz" then some 5 else none }

/-- Log with two collection-download lines; the first one names the
missing archive. -/
def logC9 : String :=
  "Downloading https://example/download/ansible-posix-1.4.0.tar.gz to /tmp/x\nDownloading https://example/download/aa-bb-2.0.0.tar.gz to /tmp/x"

/-- C9: when the matched archive filename does not exist under the
download directory, the collection-log parser logs the warning and then
still calls `os.path.getmtime` on the missing path, which raises and
aborts the whole parse: the second, perfectly valid log line never yields
a record. -/
theorem c9_unconditional_getmtime :
    extract_collections_metadata envC9 {} logC9 "/dl"
      = ({ effects := [.warn "failed to get metadata for https://example/download/ansible-posix-1.4.0.tar.gz"] },
         Except.error "FileNotFoundError") := by
  decide

/-- Environment for the collection-log claims: the downloaded archive
exists under the download directory. -/
def envC4 : Env :=
  { baseEnv with mtime := fun p => if p == "/dl/ansible-posix-1.4.0.tar.gz" then some 7 else none }

/-- Download log whose URL has a hyphen in the host part. -/
def logC4 : String :=
  "Downloading https://my-host/download/ansible-posix-1.4.0.tar.gz to /tmp/x"

/-- C4 counterexample: the claim derives the name from the archive
filename's hyphen-delimited prefix, which for
`ansible-posix-1.4.0.tar.gz` is `ansible.posix`; but the source splits
the whole URL on hyphens, so a hyphen in the host part
(`https://my-host/...`) makes the parser yield
`my.host/download/ansible` instead. -/
theorem c4_counterexample :
    ((extract_collections_metadata envC4 {} logC4 "/dl").2.toOption.map
        (fun mf => mf.collections.map (fun d => d.name)))
      = some [PyVal.str "my.host/download/ansible"]
    ∧ "my.host/download/ansible" ≠ "ansible.posix" := by
  exact ⟨by decide, by decide⟩

/-- C4 (amended): for a collection-download log line whose URL ends in
the archive suffix, the parser hyphen-splits the whole URL (not just the
filename): the name is the last slash-segment of the first hyphen token,
followed by a dot, followed by the second hyphen token; the version is
the last hyphen token with the archive extension removed; the recorded
local path is `<download_location>/<filename>`.  This agrees with the
filename-prefix rule of the claim exactly when the URL up to the filename
contains no hyphen, as in the claim's own example (see the witness). -/
theorem c4_amended (env : Env) (st : St) (log download_location url t0 t1 : String)
    (ts : List String) (mt : Nat)
    (hfind : findallDownloading log = [url])
    (hgz : pyEndsWith url "tar.gz" = true)
    (hsplit : pySplit url "-" = t0 :: t1 :: ts)
    (hmt : env.mtime (download_location ++ "/" ++ lastD (pySplit url "/")) = some mt) :
    extract_collections_metadata env st log download_location =
      (st, Except.ok { collections := [{
        name := .str (lastD (pySplit t0 "/") ++ "." ++ t1),
        type := .str "collection",
        version := .str (pyReplace (lastD (t0 :: t1 :: ts)) ".tar.gz" ""),
        download_url := .str url,
        download_timestamp := .str (env.utcIso mt),
        download_src_path := .str (download_location ++ "/" ++ lastD (pySplit url "/")),
        metafile_path := .str (env.metafileInTarget
          (download_location ++ "/" ++ lastD (pySplit url "/"))).1,
        files_json_path := .str (env.metafileInTarget
          (download_location ++ "/" ++ lastD (pySplit url "/"))).2,
        author := .str (env.authorOf (env.metafileInTarget
          (download_location ++ "/" ++ lastD (pySplit url "/"))).1),
        requirements_file := .str (download_location ++ "/" ++ requirements_yml),
        hash := .str (env.hashOfUrl url) }] }) := by
  have hne : url ≠ "" := by
    intro h
    rw [h] at hgz
    exact absurd hgz (by decide)
  have hbu : (url != "") = true := bne_iff_ne.mpr hne
  have hmt2 : env.mtime (download_location ++ "/" ++ (pySplit url "/").getLastD "") = some mt := hmt
  simp only [extract_collections_metadata, hfind, extractColLoop, extractColRecord,
    hsplit, hgz, hmt, hmt2, hbu, Option.isSome_some, if_true, ebind, headD, lastD]
  rfl

/-- C4 witness: the claim's own example line parses to `ansible.posix`
version `1.4.0` under the amended whole-URL rule. -/
theorem c4_witness :
    extract_collections_metadata envC4 ({} : St)
        "Downloading https://example/download/ansible-posix-1.4.0.tar.gz to /tmp/x" "/dl"
      = ({}, Except.ok { collections := [{
          name := .str "ansible.posix",
          type := .str "collection",
          version := .str "1.4.0",
          download_url := .str "https://example/download/ansible-posix-1.4.0.tar.gz",
          download_timestamp := .str "1970-01-01T00:00:7",
          download_src_path := .str "/dl/ansible-posix-1.4.0.tar.gz",
          metafile_path := .str "/dl/ansible-posix-1.4.0.tar.gz-MANIFEST.json",
          files_json_path := .str "/dl/ansible-posix-1.4.0.tar.gz-FILES.json",
          author := .str "alice",
          requirements_file := .str "/dl/requirements.yml",
          hash := .str "sha256:https://example/download/ansible-posix-1.4.0.tar.gz" }] }) := by
  have h := c4_amended envC4 {}
    "Downloading https://example/download/ansible-posix-1.4.0.tar.gz to /tmp/x"
    "/dl" "https://example/download/ansible-posix-1.4.0.tar.gz"
    "https://example/download/ansible" "posix" ["1.4.0.tar.gz"] 7
    (by decide) (by decide) (by decide) (by decide)
  exact h

/-- C5: for a log line starting with the sentinel
`- downloading role from `, the role-log parser emits a record whose URL
is the line's last space-token, whose version is the URL's last path
segment with the archive suffix removed, and whose name is the last path
segment of the next line (whose last space-token is the extracted role
directory, which must exist for the timestamp lookup); the scan then
continues from the next line. -/
theorem c5_role_log (env : Env) (st : St) (l1 l2 : String) (rest : List String) (t : Nat)
    (hsent : pyStartsWith l1 "- downloading role from " = true)
    (hmt : env.mtime (lastD (pySplit l2 " ")) = some t) :
    rolesGo env (l1 :: l2 :: rest) st =
      ebind (rolesGo env (l2 :: rest) st) (fun recs st1 =>
        (st1, Except.ok (({
          name := .str (lastD (pySplit l2 "/")),
          type := .str "role",
          version := .str (pyReplace (lastD (pySplit (lastD (pySplit l1 " ")) "/")) ".tar.gz" ""),
          download_url := .str (lastD (pySplit l1 " ")),
          download_timestamp := .str (env.utcIso t),
          download_src_path := .str (lastD (pySplit l2 " ")),
          hash := if (lastD (pySplit l1 " ")) != "" then .str (env.hashOfUrl (lastD (pySplit l1 " ")))
                  else .str "" } : DownloadMetadata) :: recs))) := by
  have hmt2 : env.mtime ((pySplit l2 " ").getLastD "") = some t := hmt
  simp only [rolesGo, hsent, if_true, List.head?, hmt, hmt2, lastD]
  rfl

/-- Environment for the role-log witness: the extracted role directory
exists. -/
def envC5 : Env :=
  { baseEnv with mtime := fun p => if p == "/tmp/role-test/x.y" then some 3 else none }

/-- C5 witness: the claim's example pair of lines yields name `x.y` and
version `1.0.3`. -/
theorem c5_witness :
    rolesGo envC5 ["- downloading role from https://github.com/x/y/archive/1.0.3.tar.gz",
                   "- extracting x.y to /tmp/role-test/x.y"] {}
      = ({}, Except.ok [{
          name := .str "x.y",
          type := .str "role",
          version := .str "1.0.3",
          download_url := .str "https://github.com/x/y/archive/1.0.3.tar.gz",
          download_timestamp := .str "1970-01-01T00:00:3",
          download_src_path := .str "/tmp/role-test/x.y",
          hash := .str "sha256:https://github.com/x/y/archive/1.0.3.tar.gz" }]) := by
  have h := c5_role_log envC5 {} "- downloading role from https://github.com/x/y/archive/1.0.3.tar.gz"
    "- extracting x.y to /tmp/role-test/x.y" [] 3 (by decide) (by decide)
  rw [h]
  decide

/-- Overwriting twice at a path collapses to the last write. -/
theorem overwrite_overwrite (p : String) (a b : MetaFile) :
    ∀ fs : FS, overwrite p b (overwrite p a fs) = overwrite p b fs
  | [] => rfl
  | e :: rest => by
    by_cases he : (e.1 == p) = true
    · simp only [overwrite, if_pos he]
      rw [overwrite_overwrite p a b rest]
      simp
    · simp only [overwrite, if_neg he]
      rw [overwrite_overwrite p a b rest]

/-- Overwriting keeps an existing key present. -/
theorem hasKey_overwrite (p : String) (a : MetaFile) :
    ∀ fs : FS, hasKey fs p = true → hasKey (overwrite p a fs) p = true
  | e :: rest, h => by
    by_cases he : (e.1 == p) = true
    · simp only [overwrite, if_pos he, hasKey]
      simp
    · rw [hasKey, Bool.or_eq_true_iff] at h
      rcases h with h | h
      · exact absurd h he
      · simp only [overwrite, if_neg he, hasKey, hasKey_overwrite p a rest h, Bool.or_true]

/-- Overwriting a key that is absent changes nothing. -/
theorem overwrite_id (p : String) (a : MetaFile) :
    ∀ fs : FS, hasKey fs p = false → overwrite p a fs = fs
  | [], _ => rfl
  | e :: rest, h => by
    rw [hasKey] at h
    have he : (e.1 == p) = false := by
      by_contra hc
      simp [eq_true_of_ne_false hc] at h
    have ht : hasKey rest p = false := by
      by_contra hc
      simp [eq_true_of_ne_false hc] at h
    rw [overwrite, if_neg (by simp [he]), overwrite_id p a rest ht]

/-- Overwriting distributes over appending. -/
theorem overwrite_append (p : String) (a : MetaFile) :
    ∀ fs fs2 : FS, overwrite p a (fs ++ fs2) = overwrite p a fs ++ overwrite p a fs2
  | [], _ => rfl
  | e :: rest, fs2 => by
    simp only [List.cons_append, overwrite, List.append_eq]
    rw [overwrite_append p a rest fs2]

/-- Key presence over an appended map. -/
theorem hasKey_append (p : String) :
    ∀ fs fs2 : FS, hasKey (fs ++ fs2) p = (hasKey fs p || hasKey fs2 p)
  | [], _ => by simp [hasKey]
  | e :: rest, fs2 => by
    simp only [List.cons_append, hasKey, List.append_eq]
    rw [hasKey_append p rest fs2, Bool.or_assoc]

/-- Reading after an in-place overwrite of an existing key yields the new
content. -/
theorem lookup_overwrite (p : String) (mf : MetaFile) :
    ∀ fs : FS, hasKey fs p = true → lookupFile (overwrite p mf fs) p = some mf
  | e :: rest, h => by
    by_cases he : (e.1 == p) = true
    · rw [overwrite, if_pos he, lookupFile, if_pos (by simp)]
    · rw [hasKey, Bool.or_eq_true_iff] at h
      rcases h with h | h
      · exact absurd h he
      · rw [overwrite, if_neg he, lookupFile, if_neg he, lookup_overwrite p mf rest h]

/-- Reading past entries that do not hold the key. -/
theorem lookup_append (p : String) :
    ∀ (fs fs2 : FS), hasKey fs p = false → lookupFile (fs ++ fs2) p = lookupFile fs2 p
  | [], _, _ => rfl
  | e :: rest, fs2, h => by
    rw [hasKey] at h
    have he : (e.1 == p) = false := by
      by_contra hc
      simp [eq_true_of_ne_false hc] at h
    have ht : hasKey rest p = false := by
      by_contra hc
      simp [eq_true_of_ne_false hc] at h
    rw [List.cons_append, lookupFile, if_neg (by simp [he]), lookup_append p rest fs2 ht]

/-- Overwriting lookup: after `setFile`, reading the same path yields the
written content, whatever was there before. -/
theorem lookupFile_setFile (fs : FS) (p : String) (mf : MetaFile) :
    lookupFile (setFile fs p mf) p = some mf := by
  unfold setFile
  by_cases h : hasKey fs p = true
  · rw [if_pos h, lookup_overwrite p mf fs h]
  · have hf : hasKey fs p = false := by simpa using h
    rw [if_neg h, lookup_append p fs [(p, mf)] hf, lookupFile, if_pos (by simp)]

/-- Two writes to the same path collapse to the last one. -/
theorem setFile_setFile (fs : FS) (p : String) (a b : MetaFile) :
    setFile (setFile fs p a) p b = setFile fs p b := by
  unfold setFile
  by_cases h : hasKey fs p = true
  · rw [if_pos h, if_pos (hasKey_overwrite p a fs h), if_pos h, overwrite_overwrite]
  · have hf : hasKey fs p = false := by simpa using h
    rw [if_neg h, if_pos (by simp [hasKey_append, hasKey]), if_neg h,
      overwrite_append, overwrite_id p b fs hf]
    simp [overwrite]

/-- Does any stored record match the target name. -/
def anyRec (target : String) : List DownloadMetadata → Bool
  | [] => false
  | dm :: rest => dm.name.eqStr target || anyRec target rest

/-- Net record transformation applied by one `update_metadata` call to
each stored record. -/
def updRec (target key : String) (value : PyVal) (dm : DownloadMetadata) : DownloadMetadata :=
  if dm.name.eqStr target then (if hasattrDM key then setattrDM dm key value else dm) else dm

/-- Records in a list with no match are unchanged by the update map. -/
theorem map_updRec_id (target key : String) (value : PyVal) :
    ∀ l : List DownloadMetadata, anyRec target l = false →
      l.map (updRec target key value) = l
  | [], _ => rfl
  | dm :: rest, h => by
    rw [anyRec] at h
    have hm : (dm.name.eqStr target) = false := by
      by_contra hc
      simp [eq_true_of_ne_false hc] at h
    have ht : anyRec target rest = false := by
      by_contra hc
      simp [eq_true_of_ne_false hc] at h
    rw [List.map_cons, map_updRec_id target key value rest ht]
    simp [updRec, hm]

/-- The final filesystem produced by the `update_metadata` loop: when some
record matches, the file holds the fully transformed list (each
intermediate write is overwritten by the next); when none matches,
nothing is written. -/
theorem updWrite_spec (ty : LType) (file : String) (mf : MetaFile)
    (target key : String) (value : PyVal) :
    ∀ (l done : List DownloadMetadata) (fs : FS),
      updWrite ty file mf target key value done l fs =
        if anyRec target l then
          setFile fs file (mf.setList ty (done ++ l.map (updRec target key value)))
        else fs
  | [], done, fs => by simp [updWrite, anyRec]
  | dm :: rest, done, fs => by
    by_cases hm : (dm.name.eqStr target) = true
    · have hAny : anyRec target (dm :: rest) = true := by
        show (dm.name.eqStr target || anyRec target rest) = true
        rw [hm, Bool.true_or]
      rw [if_pos hAny]
      simp only [updWrite, if_pos hm]
      rw [updWrite_spec ty file mf target key value rest]
      by_cases hr : anyRec target rest = true
      · rw [if_pos hr, setFile_setFile]
        simp [updRec, hm]
      · have hrf : anyRec target rest = false := by simpa using hr
        rw [if_neg (by simp [hrf])]
        simp [updRec, hm, map_updRec_id target key value rest hrf]
    · have hmf : (dm.name.eqStr target) = false := by simpa using hm
      have hAny : anyRec target (dm :: rest) = anyRec target rest := by
        show (dm.name.eqStr target || anyRec target rest) = anyRec target rest
        rw [hmf, Bool.false_or]
      rw [hAny]
      simp only [updWrite, if_neg hm]
      rw [updWrite_spec ty file mf target key value rest]
      have h1 : updRec target key value dm = dm := by simp [updRec, hmf]
      by_cases hr : anyRec target rest = true
      · rw [if_pos hr, if_pos hr]
        simp [updRec, hmf]
      · have hrf : anyRec target rest = false := by simpa using hr
        rw [if_neg (by simp [hrf]), if_neg (by simp [hrf])]

set_option maxHeartbeats 1000000 in
/-- Changing any schema field other than `name` does not change the
record's name. -/
theorem setattrDM_name (d : DownloadMetadata) (key : String) (v : PyVal)
    (h : ¬ key = "name") : (setattrDM d key v).name = d.name := by
  unfold setattrDM
  rw [if_neg (by simpa using h)]
  by_cases h0 : (key == "type") = true
  · rw [if_pos h0]
  · rw [if_neg h0]
    by_cases h1 : (key == "version") = true
    · rw [if_pos h1]
    · rw [if_neg h1]
      by_cases h2 : (key == "author") = true
      · rw [if_pos h2]
      · rw [if_neg h2]
        by_cases h3 : (key == "download_url") = true
        · rw [if_pos h3]
        · rw [if_neg h3]
          by_cases h4 : (key == "download_src_path") = true
          · rw [if_pos h4]
          · rw [if_neg h4]
            by_cases h5 : (key == "hash") = true
            · rw [if_pos h5]
            · rw [if_neg h5]
              by_cases h6 : (key == "metafile_path") = true
              · rw [if_pos h6]
              · rw [if_neg h6]
                by_cases h7 : (key == "files_json_path") = true
                · rw [if_pos h7]
                · rw [if_neg h7]
                  by_cases h8 : (key == "download_timestamp") = true
                  · rw [if_pos h8]
                  · rw [if_neg h8]
                    by_cases h9 : (key == "cache_enabled") = true
                    · rw [if_pos h9]
                    · rw [if_neg h9]
                      by_cases h10 : (key == "cache_dir") = true
                      · rw [if_pos h10]
                      · rw [if_neg h10]
                        by_cases h11 : (key == "source_repository") = true
                        · rw [if_pos h11]
                        · rw [if_neg h11]
                          by_cases h12 : (key == "requirements_file") = true
                          · rw [if_pos h12]
                          · rw [if_neg h12]

/-- A found record makes the list match. -/
theorem findRec_any (target : String) :
    ∀ (l : List DownloadMetadata) (r : DownloadMetadata),
      findRec target l = some r → anyRec target l = true
  | [], r, h => by simp [findRec] at h
  | dm :: rest, r, h => by
    simp only [findRec] at h
    by_cases hm : (dm.name.eqStr target) = true
    · simp [anyRec, hm]
    · rw [if_neg (by simpa using hm)] at h
      simp [anyRec, findRec_any target rest r h]

/-- The first matching record survives the update map, transformed in
place when the field is on the schema (all fields except `name` keep the
record findable under its old name). -/
theorem findRec_map_updRec (target key : String) (value : PyVal) (hkey : ¬ key = "name") :
    ∀ (l : List DownloadMetadata) (r : DownloadMetadata),
      findRec target l = some r →
      findRec target (l.map (updRec target key value))
        = some (if hasattrDM key then setattrDM r key value else r)
  | [], r, h => by simp [findRec] at h
  | dm :: rest, r, h => by
    simp only [findRec] at h
    by_cases hm : (dm.name.eqStr target) = true
    · rw [if_pos hm] at h
      have hr : dm = r := by injection h
      subst hr
      have h1 : updRec target key value dm
          = (if hasattrDM key then setattrDM dm key value else dm) := by
        simp [updRec, hm]
      have hnm : ((updRec target key value dm).name.eqStr target) = true := by
        rw [h1]
        by_cases hA : hasattrDM key = true
        · rw [if_pos hA, show (setattrDM dm key value).name = dm.name from
            setattrDM_name dm key value hkey]
          exact hm
        · rw [if_neg hA]
          exact hm
      rw [List.map_cons, findRec, if_pos hnm, h1]
    · rw [if_neg (by simpa using hm)] at h
      have h1 : updRec target key value dm = dm := by
        simp [updRec, show (dm.name.eqStr target) = false by simpa using hm]
      rw [List.map_cons, h1, findRec, if_neg hm]
      exact findRec_map_updRec target key value hkey rest r h

/-- Reading a known field back after setting it returns the new value. -/
theorem getattr_setattr (r : DownloadMetadata) (key : String) (value : PyVal)
    (h : hasattrDM key = true) : getattrDM (setattrDM r key value) key = some value := by
  simp only [hasattrDM, Bool.or_eq_true, beq_iff_eq, or_assoc] at h
  rcases h with h | h | h | h | h | h | h | h | h | h | h | h | h | h <;> subst h <;> rfl

/-- The type-selected list of a rewritten file is the new list. -/
theorem listOf_setList (ty : LType) (mf : MetaFile) (l : List DownloadMetadata)
    (hty : ty = LType.collection ∨ ty = LType.role) :
    (mf.setList ty l).listOf ty = some l := by
  rcases hty with h | h <;> subst h <;> rfl

/-- The type-selected list of a parser-built file is the record list. -/
theorem listOf_ofList (ty : LType) (l : List DownloadMetadata)
    (hty : ty = LType.collection ∨ ty = LType.role) :
    (MetaFile.ofList ty l).listOf ty = some l := by
  rcases hty with h | h <;> subst h <;> rfl

/-- C6: exporting a metadata collection to a directory and filename and
then finding a contained name on the same type and resulting file returns
the record unchanged (first match by name); the export creates the
destination directory when absent and overwrites the file content
unconditionally. -/
theorem c6_round_trip (env : Env) (st : St) (ty : LType) (recs : List DownloadMetadata)
    (dir filename target : String) (r : DownloadMetadata)
    (hty : ty = LType.collection ∨ ty = LType.role)
    (hfind : findRec target recs = some r) :
    (export_data env st (MetaFile.ofList ty recs) dir filename).2
        = Except.ok (pjoin dir filename)
    ∧ find_target_metadata (export_data env st (MetaFile.ofList ty recs) dir filename).1.fs
        ty (pjoin dir filename) target = Except.ok (some r)
    ∧ lookupFile (export_data env st (MetaFile.ofList ty recs) dir filename).1.fs
        (pjoin dir filename) = some (MetaFile.ofList ty recs)
    ∧ (pexists env st dir = false →
        ((export_data env st (MetaFile.ofList ty recs) dir filename).1.mkdirs).contains dir
          = true) := by
  have hfs : (export_data env st (MetaFile.ofList ty recs) dir filename).1.fs
      = setFile st.fs (pjoin dir filename) (MetaFile.ofList ty recs) := by
    unfold export_data
    by_cases hp : pexists env st dir = true <;> simp [hp, emakedirs]
  have hlook : lookupFile (export_data env st (MetaFile.ofList ty recs) dir filename).1.fs
      (pjoin dir filename) = some (MetaFile.ofList ty recs) := by
    rw [hfs, lookupFile_setFile]
  refine ⟨?_, ?_, hlook, ?_⟩
  · unfold export_data
    by_cases hp : pexists env st dir = true <;> simp [hp]
  · unfold find_target_metadata
    rw [hlook]
    simp [listOf_ofList ty recs hty, hfind]
  · intro hp
    unfold export_data
    rw [if_neg (by simp [hp])]
    simp [emakedirs]

/-- Sample record for the store round-trip witness. -/
def rC6 : DownloadMetadata := { name := .str "ns.c", version := .str "2.0" }

/-- C6 witness: a concrete export followed by find returns the record. -/
theorem c6_witness :
    (export_data baseEnv {} (MetaFile.ofList .collection [rC6]) "/cache/collection/ns.c"
        download_metadata_file).2 = Except.ok "/cache/collection/ns.c/download_meta.json"
    ∧ find_target_metadata (export_data baseEnv {} (MetaFile.ofList .collection [rC6])
        "/cache/collection/ns.c" download_metadata_file).1.fs
        .collection "/cache/collection/ns.c/download_meta.json" "ns.c"
      = Except.ok (some rC6) := by
  have h := c6_round_trip baseEnv {} .collection [rC6] "/cache/collection/ns.c"
    download_metadata_file "ns.c" rC6 (Or.inl rfl) (by decide)
  exact ⟨h.1, h.2.1⟩

/-- Sample record for the update counterexample. -/
def rC7 : DownloadMetadata := { name := .str "n", version := .str "1.0" }

/-- Stored metadata file for the update counterexample. -/
def fsC7 : FS := [("f", { collections := [rC7] })]

/-- C7 counterexample: `name` is a field on the record schema, yet
updating it re-keys the record, so the subsequent find by the old name
returns nothing instead of a record carrying the new field value. -/
theorem c7_counterexample :
    ((update_metadata fsC7 .collection "f" "n" "name" (.str "m")).toOption.map
        (fun fs2 => find_target_metadata fs2 .collection "f" "n"))
      = some (Except.ok none)
    ∧ ((Except.ok none : Except String (Option DownloadMetadata))
        ≠ Except.ok (some (setattrDM rC7 "name" (.str "m")))) := by
  exact ⟨by decide, by decide⟩

/-- C7 (amended): for a stored metadata file containing a record named
`n`, an update on a field other than `name` followed by a find on `n`
returns the record with the named field set to the new value when the
field exists on the record schema, and the record unchanged when the
field is unknown to the schema; updating the `name` field itself re-keys
the record so the old name no longer finds it. -/
theorem c7_amended (fs : FS) (ty : LType) (file target key : String) (value : PyVal)
    (mf : MetaFile) (l : List DownloadMetadata) (r : DownloadMetadata)
    (hty : ty = LType.collection ∨ ty = LType.role)
    (hkey : key ≠ "name")
    (hfile : lookupFile fs file = some mf)
    (hl : mf.listOf ty = some l)
    (hfind : findRec target l = some r) :
    update_metadata fs ty file target key value
      = Except.ok (setFile fs file (mf.setList ty (l.map (updRec target key value))))
    ∧ find_target_metadata (setFile fs file (mf.setList ty (l.map (updRec target key value))))
        ty file target
      = Except.ok (some (if hasattrDM key then setattrDM r key value else r))
    ∧ (hasattrDM key = true → getattrDM (setattrDM r key value) key = some value) := by
  have hAny := findRec_any target l r hfind
  refine ⟨?_, ?_, fun hA => getattr_setattr r key value hA⟩
  · simp only [update_metadata, hfile, hl]
    rw [updWrite_spec ty file mf target key value l [] fs, if_pos hAny]
    rfl
  · simp only [find_target_metadata, lookupFile_setFile,
      listOf_setList ty mf (l.map (updRec target key value)) hty]
    rw [findRec_map_updRec target key value hkey l r hfind]

/-- C7 witness: a concrete update of the `version` field is reflected by
the following find, and an unknown field is a no-op. -/
theorem c7_witness :
    update_metadata fsC7 .collection "f" "n" "version" (.str "9.9")
      = Except.ok [("f", { collections := [{ rC7 with version := .str "9.9" }] })]
    ∧ find_target_metadata [("f", { collections := [{ rC7 with version := .str "9.9" }] })]
        .collection "f" "n" = Except.ok (some { rC7 with version := .str "9.9" })
    ∧ update_metadata fsC7 .collection "f" "n" "no_such_field" (.str "x")
      = Except.ok [("f", { collections := [rC7] })] := by
  have h1 := c7_amended fsC7 .collection "f" "n" "version" (.str "9.9")
    { collections := [rC7] } [rC7] rC7 (Or.inl rfl) (by decide) (by decide) (by decide)
    (by decide)
  have h2 := c7_amended fsC7 .collection "f" "n" "no_such_field" (.str "x")
    { collections := [rC7] } [rC7] rC7 (Or.inl rfl) (by decide) (by decide) (by decide)
    (by decide)
  refine ⟨?_, ?_, ?_⟩
  · have := h1.1
    simpa using this
  · have := h1.2.1
    simpa using this
  · have := h2.1
    simpa using this

/-- Cached record for the C1 collection instances. -/
def rC1 : DownloadMetadata :=
  { name := .str "ns.c", version := .str "1.0.0",
    download_src_path := .str "/cache/collection/ns.c/ns-c-1.0.0.tar.gz" }

/-- Metadata filesystem for the C1 collection instances: the cache
directory holds one matching record. -/
def stC1 : St := { fs := [("/cache/collection/ns.c/download_meta.json", { collections := [rC1] })] }

/-- Environment for the C1 collection instances. -/
def envC1 : Env := { baseEnv with dirExists := fun p => p == "/root/collections/src" }

/-- Preparator for the C1 collection instances. -/
def selfC1 : PrepSt := { dependency_dir_path := "/root" }

/-- Cached record for the C1 role instances: the role's own record, with
a recorded archive path. -/
def rRoleC1 : DownloadMetadata :=
  { name := .str "myrole", version := .str "1.0.3",
    download_src_path := .str "/cache/roles/src/myrole/myrole-1.0.3.tar.gz" }

/-- Metadata filesystem for the C1 role instances: the role cache
sub-directory holds the role's own record. -/
def stC1r : St :=
  { fs := [("/cache/roles/src/myrole/download_meta.json", { roles := [rRoleC1] })] }

/-- Environment for the C1 role instances: the role sub-directory and the
cache location exist, and the cache location is non-empty. -/
def envC1r : Env :=
  { baseEnv with
    dirExists := fun p => p == "/root/roles/src/myrole" || p == "/cache/roles/src/myrole",
    isDirF := fun p => p == "/root/roles/src/myrole",
    listdir := fun p => if p == "/cache/roles/src/myrole"
      then ["myrole-1.0.3.tar.gz", "download_meta.json"] else [] }

/-- Preparator whose root target name differs from the role name. -/
def selfC1r : PrepSt := { dependency_dir_path := "/root", target_name := "othertarget" }

/-- Preparator whose root target name happens to equal the role name. -/
def selfC1r2 : PrepSt := { dependency_dir_path := "/root", target_name := "myrole" }

/-- C1 counterexample: a role dependency whose cache directory already
contains a matching download-metadata record (the role's own record,
findable under its name, with a recorded archive path).  The code does
not load that record — it looks the record up under the preparator's
`target_name` instead, here missing — so the appended descriptor carries
a fresh default record; and it does not reuse the recorded archive path:
the only materialization effect is the copy of the role sub-directory
into the cache location. -/
theorem c1_counterexample :
    prepRoleDep envC1r selfC1r {} true "/cache" (.plain "myrole") stC1r =
      ({ stC1r with
         effects := [.copyDir "/root/roles/src/myrole" "/cache/roles/src/myrole"],
         dependency_dirs := [{
           dir := "/root/roles/src/myrole",
           name := "myrole",
           metadata := { name := .str "myrole", type := .str "role",
                         cache_enabled := .bool true, source_repository := .str "" } }] },
       Except.ok ())
    ∧ findRec "myrole" [rRoleC1] = some rRoleC1
    ∧ ({ name := .str "myrole", type := .str "role", cache_enabled := .bool true,
         source_repository := .str "" } : DownloadMetadata) ≠ rRoleC1
    ∧ rRoleC1.download_src_path = .str "/cache/roles/src/myrole/myrole-1.0.3.tar.gz" := by
  exact ⟨by decide, by decide, by decide, by decide⟩

/-- C1 (amended): with the cache enabled, a collection dependency whose
cache directory already contains a matching download-metadata record is
resolved with zero fetch invocations, its own record loaded from the
metadata file next to the recorded archive, and the recorded archive path
reused for materialization.  A role dependency with cached data is also
resolved with zero fetch invocations, but its metadata record is looked
up under the preparator's root target name instead of the role's own
name, and materialization copies the role sub-directory into the cache
location instead of reusing the recorded archive path. -/
theorem c1_amended :
    (∀ (env : Env) (self : PrepSt) (deps : DepsInfo) (st : St)
        (cache_dir col_name tf p0 p1 : String) (prest : List String) (r : DownloadMetadata),
      pexists env st (pjoin3 self.dependency_dir_path "collections" "src") = true →
      is_download_file_exist env st .collection col_name cache_dir
        = Except.ok (true, .str tf) →
      find_target_metadata st.fs .collection
        (pjoin (rsplitHead tf) download_metadata_file) col_name = Except.ok (some r) →
      pySplit col_name "." = p0 :: p1 :: prest →
      prepColDep env self deps true cache_dir (.plain col_name) st =
        ({ st with
           effects := st.effects
             ++ [.installTargz tf (pjoin3 self.dependency_dir_path "collections" "src")],
           dependency_dirs := st.dependency_dirs
             ++ [{ dir := pjoin4 (pjoin3 self.dependency_dir_path "collections" "src")
                     "ansible_collections" p0 p1,
                   name := col_name,
                   metadata := { r with cache_dir := .str tf } }] },
         Except.ok ())
      ∧ ((prepColDep env self deps true cache_dir (.plain col_name) st).1.effects.drop
            st.effects.length).all (fun e => !e.isFetch) = true)
    ∧ (∀ (env : Env) (self : PrepSt) (deps : DepsInfo) (st : St)
        (cache_dir name : String) (mdO : Option DownloadMetadata),
      pexists env st (pjoin4 cache_dir "roles" "src" name) = true →
      (env.listdir (pjoin4 cache_dir "roles" "src" name)).isEmpty = false →
      find_target_metadata st.fs .role
          (pjoin (pjoin4 cache_dir "roles" "src" name) download_metadata_file)
          self.target_name = Except.ok mdO →
      pexists env st (pjoin4 self.dependency_dir_path "roles" "src" name) = true →
      pisdir env st (pjoin4 self.dependency_dir_path "roles" "src" name) = true →
      ((pjoin4 self.dependency_dir_path "roles" "src" name) == "") = false →
      ((pjoin4 cache_dir "roles" "src" name) == "") = false →
      strContains (pjoin4 cache_dir "roles" "src" name) ".." = false →
      prepRoleDep env self deps true cache_dir (.plain name) st =
        ({ st with
           effects := st.effects
             ++ [.copyDir (pjoin4 self.dependency_dir_path "roles" "src" name)
                  (pjoin4 cache_dir "roles" "src" name)],
           dependency_dirs := st.dependency_dirs
             ++ [{ dir := pjoin4 self.dependency_dir_path "roles" "src" name,
                   name := name,
                   metadata := { (mdO.getD { name := .str name, type := .str "role", cache_enabled := .bool true }) with source_repository := .str self.source_repository } }] },
         Except.ok ())
      ∧ ((prepRoleDep env self deps true cache_dir (.plain name) st).1.effects.drop
            st.effects.length).all (fun e => !e.isFetch) = true) := by
  constructor
  · intro env self deps st cache_dir col_name tf p0 p1 prest r hsub hdl hmd hparts
    have heq : prepColDep env self deps true cache_dir (.plain col_name) st =
        ({ st with
           effects := st.effects
             ++ [.installTargz tf (pjoin3 self.dependency_dir_path "collections" "src")],
           dependency_dirs := st.dependency_dirs
             ++ [{ dir := pjoin4 (pjoin3 self.dependency_dir_path "collections" "src")
                     "ansible_collections" p0 p1,
                   name := col_name,
                   metadata := { r with cache_dir := .str tf } }] },
         Except.ok ()) := by
      simp only [prepColDep, hsub, if_true, hdl, hmd, hparts, ebind, addEff, addDep, PyVal.fmt]
    refine ⟨heq, ?_⟩
    rw [heq]
    simp [Effect.isFetch]
  · intro env self deps st cache_dir name mdO hc1 hc2 hmd hsub hdir hsube hdst1 hdst2
    have heq : prepRoleDep env self deps true cache_dir (.plain name) st =
        ({ st with
           effects := st.effects
             ++ [.copyDir (pjoin4 self.dependency_dir_path "roles" "src" name)
                  (pjoin4 cache_dir "roles" "src" name)],
           dependency_dirs := st.dependency_dirs
             ++ [{ dir := pjoin4 self.dependency_dir_path "roles" "src" name,
                   name := name,
                   metadata := { (mdO.getD { name := .str name, type := .str "role", cache_enabled := .bool true }) with source_repository := .str self.source_repository } }] },
         Except.ok ()) := by
      cases mdO with
      | none =>
        simp only [prepRoleDep, hsub, hc1, hc2, hmd, hsube, hdir, hdst1, hdst2, move_src,
          ebind, addEff, addDep, Option.getD, if_true, if_false, Bool.not_true,
          Bool.not_false, Bool.and_true, Bool.true_and, Bool.and_false, Bool.false_and,
          Bool.or_false, Bool.false_or, Bool.true_or, Bool.or_true, Bool.false_eq_true,
          Bool.and_self, Bool.or_self]
        rfl
      | some m =>
        simp only [prepRoleDep, hsub, hc1, hc2, hmd, hsube, hdir, hdst1, hdst2, move_src,
          ebind, addEff, addDep, Option.getD, if_true, if_false, Bool.not_true,
          Bool.not_false, Bool.and_true, Bool.true_and, Bool.and_false, Bool.false_and,
          Bool.or_false, Bool.false_or, Bool.true_or, Bool.or_true, Bool.false_eq_true,
          Bool.and_self, Bool.or_self]
    refine ⟨heq, ?_⟩
    rw [heq]
    simp [Effect.isFetch]

/-- C1 witness: a concrete fully cached collection dependency is resolved
without any fetch, reusing the recorded archive path; and a concrete
cached role dependency whose name equals the preparator's target name is
resolved without any fetch, loading the cached record and copying the
sub-directory into the cache. -/
theorem c1_witness :
    prepColDep envC1 selfC1 {} true "/cache" (.plain "ns.c") stC1 =
      ({ stC1 with
         effects := [.installTargz "/cache/collection/ns.c/ns-c-1.0.0.tar.gz"
           "/root/collections/src"],
         dependency_dirs := [{
           dir := "/root/collections/src/ansible_collections/ns/c",
           name := "ns.c",
           metadata := { rC1 with
             cache_dir := .str "/cache/collection/ns.c/ns-c-1.0.0.tar.gz" } }] },
       Except.ok ())
    ∧ prepRoleDep envC1r selfC1r2 {} true "/cache" (.plain "myrole") stC1r =
      ({ stC1r with
         effects := [.copyDir "/root/roles/src/myrole" "/cache/roles/src/myrole"],
         dependency_dirs := [{
           dir := "/root/roles/src/myrole",
           name := "myrole",
           metadata := { rRoleC1 with source_repository := .str "" } }] },
       Except.ok ()) := by
  constructor
  · have h := (c1_amended.1 envC1 selfC1 {} stC1 "/cache" "ns.c"
      "/cache/collection/ns.c/ns-c-1.0.0.tar.gz" "ns" "c" [] rC1
      (by decide) (by decide) (by decide) (by decide)).1
    simpa using h
  · have h := (c1_amended.2 envC1r selfC1r2 {} stC1r "/cache" "myrole" (some rRoleC1)
      (by decide) (by decide) (by decide) (by decide) (by decide) (by decide) (by decide)
      (by decide)).1
    simpa using h

/-- C3: with the cache disabled and the dependency name present in the
finder's explicit path mapping, the resulting descriptor's `dir` field is
exactly the mapped directory and no effect at all is performed: no fetch,
no install, no copy, no export, no directory creation into that
directory.  First part: collection mappings, whose metadata is backfilled
from the finder's galaxy section (download URL, hash, version); second
part: role mappings, which keep the freshly initialized metadata. -/
theorem c3_path_mapping :
    (∀ (env : Env) (self : PrepSt) (deps : DepsInfo) (st : St)
        (cache_dir col_name mapped : String),
      pexists env st (pjoin3 self.dependency_dir_path "collections" "src") = true →
      alookup deps.colPaths col_name = some mapped →
      prepColDep env self deps false cache_dir (.plain col_name) st =
        ({ st with dependency_dirs := st.dependency_dirs
            ++ [{ dir := mapped,
                  name := col_name,
                  metadata := {
                    name := .str col_name,
                    type := .str "collection",
                    cache_enabled := .bool false,
                    source_repository := .str self.source_repository,
                    download_url := .str ((alookup deps.colMeta col_name).getD {}).download_url,
                    hash := .str (if ((alookup deps.colMeta col_name).getD {}).download_url != ""
                      then env.hashOfUrl ((alookup deps.colMeta col_name).getD {}).download_url
                      else ""),
                    version := .str ((alookup deps.colMeta col_name).getD {}).version } }] },
         Except.ok ())
      ∧ (prepColDep env self deps false cache_dir (.plain col_name) st).1.effects
          = st.effects)
    ∧ (∀ (env : Env) (self : PrepSt) (deps : DepsInfo) (st : St)
        (cache_dir name mapped : String),
      pexists env st (pjoin4 self.dependency_dir_path "roles" "src" name) = true →
      alookup deps.rolePaths name = some mapped →
      prepRoleDep env self deps false cache_dir (.plain name) st =
        ({ st with dependency_dirs := st.dependency_dirs
            ++ [{ dir := mapped,
                  name := name,
                  metadata := { name := .str name, type := .str "role",
                                cache_enabled := .bool false,
                                source_repository := .str self.source_repository } }] },
         Except.ok ())
      ∧ (prepRoleDep env self deps false cache_dir (.plain name) st).1.effects
          = st.effects) := by
  constructor
  · intro env self deps st cache_dir col_name mapped hsub hmap
    have heq : prepColDep env self deps false cache_dir (.plain col_name) st =
        ({ st with dependency_dirs := st.dependency_dirs
            ++ [{ dir := mapped,
                  name := col_name,
                  metadata := {
                    name := .str col_name,
                    type := .str "collection",
                    cache_enabled := .bool false,
                    source_repository := .str self.source_repository,
                    download_url := .str ((alookup deps.colMeta col_name).getD {}).download_url,
                    hash := .str (if ((alookup deps.colMeta col_name).getD {}).download_url != ""
                      then env.hashOfUrl ((alookup deps.colMeta col_name).getD {}).download_url
                      else ""),
                    version := .str ((alookup deps.colMeta col_name).getD {}).version } }] },
         Except.ok ()) := by
      simp only [prepColDep, hsub, if_true, hmap, ebind, addDep, Bool.false_eq_true, if_false]
      rfl
    exact ⟨heq, by rw [heq]⟩
  · intro env self deps st cache_dir name mapped hsub hmap
    have heq : prepRoleDep env self deps false cache_dir (.plain name) st =
        ({ st with dependency_dirs := st.dependency_dirs
            ++ [{ dir := mapped,
                  name := name,
                  metadata := { name := .str name, type := .str "role",
                                cache_enabled := .bool false,
                                source_repository := .str self.source_repository } }] },
         Except.ok ()) := by
      simp only [prepRoleDep, hsub, if_true, hmap, ebind, addDep, Bool.false_eq_true, if_false]
      rfl
    exact ⟨heq, by rw [heq]⟩

/-- Finder result for the C3 collection witness: one collection
dependency with an explicit path mapping and galaxy metadata. -/
def depsC3 : DepsInfo :=
  { collections := [.plain "ns.c"],
    colPaths := [("ns.c", "/pre/supplied/ns/c")],
    colMeta := [("ns.c", { download_url := "https://g/dl/ns-c-1.0.0.tar.gz", version := "1.0.0" })] }

/-- Finder result for the C3 role witness: one role dependency with an
explicit path mapping. -/
def depsC3r : DepsInfo :=
  { roles := [.plain "myrole"], rolePaths := [("myrole", "/pre/role/dir")] }

/-- C3 witness: a concrete mapped collection dependency and a concrete
mapped role dependency each reuse the mapped directory verbatim with no
side effect. -/
theorem c3_witness :
    prepColDep envC1 selfC1 depsC3 false "" (.plain "ns.c") stC1 =
      ({ stC1 with dependency_dirs := [{
          dir := "/pre/supplied/ns/c",
          name := "ns.c",
          metadata := {
            name := .str "ns.c",
            type := .str "collection",
            cache_enabled := .bool false,
            source_repository := .str "",
            download_url := .str "https://g/dl/ns-c-1.0.0.tar.gz",
            hash := .str "sha256:https://g/dl/ns-c-1.0.0.tar.gz",
            version := .str "1.0.0" } }] },
       Except.ok ())
    ∧ prepRoleDep envC1r selfC1r depsC3r false "" (.plain "myrole") stC1r =
      ({ stC1r with dependency_dirs := [{
          dir := "/pre/role/dir",
          name := "myrole",
          metadata := { name := .str "myrole", type := .str "role",
                        cache_enabled := .bool false,
                        source_repository := .str "" } }] },
       Except.ok ()) := by
  constructor
  · have h := (c3_path_mapping.1 envC1 selfC1 depsC3 stC1 "" "ns.c" "/pre/supplied/ns/c"
      (by decide) (by decide)).1
    simpa using h
  · have h := (c3_path_mapping.2 envC1r selfC1r depsC3r stC1r "" "myrole" "/pre/role/dir"
      (by decide) (by decide)).1
    simpa using h

/-- C10: a collection dependency name without a dot separator makes the
descriptor-directory computation index past the end of the dot-split name
(`parts[1]`), raising `IndexError`.  First part: the cache-enabled branch
after a successful cache hit; second part: the default-download branch
after a successful archive lookup.  In both parts no descriptor is
appended (the final state keeps `dependency_dirs` untouched) and the
whole `prepare_dependency_dir` run aborts with the error. -/
theorem c10_dotless_name :
    (∀ (env : Env) (self : PrepSt) (deps : DepsInfo) (st : St)
        (cache_dir col_name tf : String) (r : DownloadMetadata) (crest : List ColDep),
      deps.collections = .plain col_name :: crest →
      pexists env st (pjoin3 self.dependency_dir_path "collections" "src") = true →
      is_download_file_exist env st .collection col_name cache_dir
        = Except.ok (true, .str tf) →
      find_target_metadata st.fs .collection (pjoin (rsplitHead tf) download_metadata_file)
        col_name = Except.ok (some r) →
      pySplit col_name "." = [col_name] →
      prepare_dependency_dir env self deps true cache_dir st
        = (addEff st (.installTargz tf (pjoin3 self.dependency_dir_path "collections" "src")),
           Except.error "IndexError"))
    ∧ (∀ (env : Env) (self : PrepSt) (deps : DepsInfo) (st : St)
        (cache_dir col_name : String) (tg : PyVal) (mdO : Option DownloadMetadata)
        (crest : List ColDep),
      deps.collections = .plain col_name :: crest →
      pexists env st (pjoin3 self.dependency_dir_path "collections" "src") = true →
      alookup deps.colPaths col_name = none →
      is_download_file_exist env st .collection col_name
          (pjoin3 self.download_location "collection" col_name) = Except.ok (true, tg) →
      find_target_metadata st.fs .collection
          (pjoin4 self.download_location "collection" self.target_name download_metadata_file)
          col_name = Except.ok mdO →
      pySplit col_name "." = [col_name] →
      prepare_dependency_dir env self deps false cache_dir st
        = (addEff st (.installTargz tg.fmt
             (pjoin3 self.dependency_dir_path "collections" "src")),
           Except.error "IndexError")) := by
  constructor
  · intro env self deps st cache_dir col_name tf r crest hcols hsub hdl hmd hparts
    simp only [prepare_dependency_dir, hcols, prepColDeps, prepColDep, hsub, if_true,
      hdl, hmd, hparts, ebind, addEff, PyVal.fmt]
  · intro env self deps st cache_dir col_name tg mdO crest hcols hsub hmap hdl hmd hparts
    cases mdO with
    | none =>
      simp only [prepare_dependency_dir, hcols, prepColDeps, prepColDep, hsub, if_true,
        hmap, hdl, hmd, hparts, ebind, addEff, Bool.false_eq_true, if_false]
    | some m =>
      simp only [prepare_dependency_dir, hcols, prepColDeps, prepColDep, hsub, if_true,
        hmap, hdl, hmd, hparts, ebind, addEff, Bool.false_eq_true, if_false]

/-- Dot-less record for the C10 witness. -/
def rC10 : DownloadMetadata :=
  { name := .str "nodot", version := .str "1.0.0",
    download_src_path := .str "/cache/collection/nodot/nodot-1.0.0.tar.gz" }

/-- State for the C10 witness: cache and default download location both
hold a matching record for the dot-less name. -/
def stC10 : St :=
  { fs := [("/cache/collection/nodot/download_meta.json", { collections := [rC10] }),
           ("/root/archives/collection/nodot/collection/download_meta.json",
             { collections := [rC10] }),
           ("/root/archives/collection/nodot/download_meta.json",
             { collections := [rC10] })] }

/-- Preparator for the C10 witness. -/
def selfC10 : PrepSt :=
  { dependency_dir_path := "/root", download_location := "/root/archives",
    target_name := "nodot" }

/-- Finder result for the C10 witness: the single dot-less collection. -/
def depsC10 : DepsInfo := { collections := [.plain "nodot"] }

/-- C10 witness: both branches abort with `IndexError` on the concrete
dot-less name, appending no descriptor. -/
theorem c10_witness :
    prepare_dependency_dir envC1 selfC10 depsC10 true "/cache" stC10
      = (addEff stC10 (.installTargz "/cache/collection/nodot/nodot-1.0.0.tar.gz"
           "/root/collections/src"), Except.error "IndexError")
    ∧ prepare_dependency_dir envC1 selfC10 depsC10 false "" stC10
      = (addEff stC10 (.installTargz "/cache/collection/nodot/nodot-1.0.0.tar.gz"
           "/root/collections/src"), Except.error "IndexError") := by
  constructor
  · have h := c10_dotless_name.1 envC1 selfC10 depsC10 stC10 "/cache" "nodot"
      "/cache/collection/nodot/nodot-1.0.0.tar.gz" rC10 []
      (by decide) (by decide) (by decide) (by decide) (by decide)
    simpa using h
  · have h := c10_dotless_name.2 envC1 selfC10 depsC10 stC10 "" "nodot"
      (.str "/cache/collection/nodot/nodot-1.0.0.tar.gz") (some rC10) []
      (by decide) (by decide) (by decide) (by decide) (by decide) (by decide)
    simpa using h

/-- The cache-hit behaviour of `is_download_file_exist` depends only on
the metadata filesystem once the glob is non-empty. -/
theorem is_download_congr (env : Env) (st st2 : St) (ty : LType) (target dir : String)
    (hfs : st2.fs = st.fs)
    (hne : (globMeta st.fs dir ty.str).isEmpty = false) :
    is_download_file_exist env st2 ty target dir
      = is_download_file_exist env st ty target dir := by
  unfold is_download_file_exist
  rw [hfs]
  rw [if_neg (by simp [hne]), if_neg (by simp [hne])]

/-- Descriptor produced by a collection cache hit. -/
def cachedDesc (self : PrepSt) (col_name tf p0 p1 : String) (r : DownloadMetadata) :
    Dependency :=
  { dir := pjoin4 (pjoin3 self.root_dir "collections" "src") "ansible_collections" p0 p1,
    name := col_name,
    metadata := { r with cache_dir := .str tf } }

/-- One full `prepare_dir` run over a single fully cached collection
dependency, with the base directories already present and the target
already installed: the run appends exactly one descriptor and one
install-from-archive effect, and leaves the metadata filesystem and
created-directory set untouched. -/
theorem prepare_dir_cached_run (env : Env) (self : PrepSt) (deps : DepsInfo) (st : St)
    (ri : Bool) (cache_dir col_name tf p0 p1 : String) (prest : List String)
    (r : DownloadMetadata)
    (h1 : env.dirExists (pjoin self.root_dir "archives") = true)
    (h2 : env.dirExists cache_dir = true)
    (h3 : env.dirExists self.root_dir = true)
    (h4 : env.dirExists (pjoin3 self.root_dir "collections" "src") = true)
    (hfd : env.findDep self.target_type self.target_path self.target_dependency_dir = deps)
    (hcols : deps.collections = [.plain col_name])
    (hroles : deps.roles = [])
    (hdl : is_download_file_exist env st .collection col_name cache_dir
            = Except.ok (true, .str tf))
    (hmd : find_target_metadata st.fs .collection
            (pjoin (rsplitHead tf) download_metadata_file) col_name = Except.ok (some r))
    (hparts : pySplit col_name "." = p0 :: p1 :: prest) :
    prepare_dir env self ri true true cache_dir st =
      ({ st with
         effects := st.effects
           ++ [.installTargz tf (pjoin3 self.root_dir "collections" "src")],
         dependency_dirs := st.dependency_dirs ++ [cachedDesc self col_name tf p0 p1 r] },
       Except.ok
         ({ self with download_location := pjoin self.root_dir "archives",
                      dependency_dir_path := self.root_dir },
          st.dependency_dirs ++ [cachedDesc self col_name tf p0 p1 r])) := by
  simp only [prepare_dir, setup_dirs, prepare_root_dir, prepare_dependency_dir,
    pexists, h1, h2, h3, h4, hfd, hcols, hroles, prepColDeps, prepRoleDeps, prepColDep,
    hdl, hmd, hparts, ebind, addEff, addDep, PyVal.fmt, cachedDesc,
    Bool.true_or, Bool.not_true, Bool.and_false, if_true, Bool.true_and,
    Bool.false_eq_true, if_false]

/-- C2 (amended): running `prepare_dir` twice on the same preparator
against an already fully cached dependency set performs no additional
fetch calls on the second run, but does not return an identical list:
each run appends the same descriptor block to the preparator's
`dependency_dirs` accumulator, so the second run returns the first run's
list concatenated with itself. -/
theorem c2_amended (env : Env) (self : PrepSt) (deps : DepsInfo) (st : St)
    (ri : Bool) (cache_dir col_name tf p0 p1 : String) (prest : List String)
    (r : DownloadMetadata)
    (h1 : env.dirExists (pjoin self.root_dir "archives") = true)
    (h2 : env.dirExists cache_dir = true)
    (h3 : env.dirExists self.root_dir = true)
    (h4 : env.dirExists (pjoin3 self.root_dir "collections" "src") = true)
    (hfd : env.findDep self.target_type self.target_path self.target_dependency_dir = deps)
    (hcols : deps.collections = [.plain col_name])
    (hroles : deps.roles = [])
    (hdl : is_download_file_exist env st .collection col_name cache_dir
            = Except.ok (true, .str tf))
    (hne : (globMeta st.fs cache_dir "collection").isEmpty = false)
    (hmd : find_target_metadata st.fs .collection
            (pjoin (rsplitHead tf) download_metadata_file) col_name = Except.ok (some r))
    (hparts : pySplit col_name "." = p0 :: p1 :: prest)
    (hacc : st.dependency_dirs = []) :
    ∃ st1 self1 st2 self2,
      prepare_dir env self ri true true cache_dir st
        = (st1, Except.ok (self1, [cachedDesc self col_name tf p0 p1 r]))
      ∧ prepare_dir env self1 ri true true cache_dir st1
        = (st2, Except.ok (self2, [cachedDesc self col_name tf p0 p1 r,
                                   cachedDesc self col_name tf p0 p1 r]))
      ∧ [cachedDesc self col_name tf p0 p1 r, cachedDesc self col_name tf p0 p1 r]
          ≠ [cachedDesc self col_name tf p0 p1 r]
      ∧ (st2.effects.drop st1.effects.length).all (fun e => !e.isFetch) = true := by
  have e1 := prepare_dir_cached_run env self deps st ri cache_dir col_name tf p0 p1 prest r
    h1 h2 h3 h4 hfd hcols hroles hdl hmd hparts
  rw [hacc] at e1
  simp only [List.nil_append] at e1
  have hdl1 : is_download_file_exist env
      ({ st with
         effects := st.effects
           ++ [.installTargz tf (pjoin3 self.root_dir "collections" "src")],
         dependency_dirs := [cachedDesc self col_name tf p0 p1 r] })
      .collection col_name cache_dir = Except.ok (true, .str tf) :=
    (is_download_congr env st _ .collection col_name cache_dir rfl hne).trans hdl
  have e2 := prepare_dir_cached_run env
    ({ self with download_location := pjoin self.root_dir "archives",
                 dependency_dir_path := self.root_dir }) deps
    ({ st with
       effects := st.effects
         ++ [.installTargz tf (pjoin3 self.root_dir "collections" "src")],
       dependency_dirs := [cachedDesc self col_name tf p0 p1 r] })
    ri cache_dir col_name tf p0 p1 prest r
    h1 h2 h3 h4 hfd hcols hroles hdl1 hmd hparts
  have hcd : cachedDesc ({ self with download_location := pjoin self.root_dir "archives",
                                     dependency_dir_path := self.root_dir })
      col_name tf p0 p1 r = cachedDesc self col_name tf p0 p1 r := rfl
  rw [hcd] at e2
  simp only [List.cons_append, List.nil_append] at e2
  exact ⟨_, _, _, _, e1, e2, by simp, by simp [List.drop_left, Effect.isFetch]⟩

/-- Finder result for the C2 instances: one cached collection. -/
def depsC2 : DepsInfo := { collections := [.plain "ns.c"] }

/-- Environment for the C2 instances: base directories exist and the
finder declares the single collection. -/
def envC2 : Env :=
  { baseEnv with
    dirExists := fun p => p == "/root/archives" || p == "/cache" || p == "/root"
      || p == "/root/collections/src",
    findDep := fun _ _ _ => depsC2 }

/-- Preparator for the C2 instances. -/
def selfC2 : PrepSt := { root_dir := "/root" }

/-- First run of the C2 counterexample. -/
def run1C2 : St × Except String (PrepSt × List Dependency) :=
  prepare_dir envC2 selfC2 true true true "/cache" stC1

/-- Preparator state coming out of the first run. -/
def self1C2 : PrepSt :=
  match run1C2.2 with
  | .ok sd => sd.1
  | .error _ => selfC2

/-- Second run of the C2 counterexample, on the same preparator. -/
def run2C2 : St × Except String (PrepSt × List Dependency) :=
  prepare_dir envC2 self1C2 true true true "/cache" run1C2.1

/-- Descriptor appended by each cached run in the C2 instances. -/
def dC2 : Dependency :=
  { dir := "/root/collections/src/ansible_collections/ns/c",
    name := "ns.c",
    metadata := { rC1 with cache_dir := .str "/cache/collection/ns.c/ns-c-1.0.0.tar.gz" } }

/-- C2 counterexample: on a fully cached single-dependency set, the first
run returns one descriptor but the second run on the same preparator
returns the block twice — the accumulator is never reset — so the two
returned lists are not identical. -/
theorem c2_counterexample :
    (run1C2.2.toOption.map Prod.snd = some [dC2])
    ∧ (run2C2.2.toOption.map Prod.snd = some [dC2, dC2])
    ∧ ([dC2, dC2] ≠ [dC2]) := by
  exact ⟨by decide, by decide, by decide⟩

/-- C2 witness: the amended two-run statement at the concrete instance. -/
theorem c2_witness :
    ∃ st1 self1 st2 self2,
      prepare_dir envC2 selfC2 true true true "/cache" stC1
        = (st1, Except.ok (self1, [cachedDesc selfC2 "ns.c"
            "/cache/collection/ns.c/ns-c-1.0.0.tar.gz" "ns" "c" rC1]))
      ∧ prepare_dir envC2 self1 true true true "/cache" st1
        = (st2, Except.ok (self2, [cachedDesc selfC2 "ns.c"
            "/cache/collection/ns.c/ns-c-1.0.0.tar.gz" "ns" "c" rC1,
            cachedDesc selfC2 "ns.c"
            "/cache/collection/ns.c/ns-c-1.0.0.tar.gz" "ns" "c" rC1]))
      ∧ [cachedDesc selfC2 "ns.c" "/cache/collection/ns.c/ns-c-1.0.0.tar.gz" "ns" "c" rC1,
         cachedDesc selfC2 "ns.c" "/cache/collection/ns.c/ns-c-1.0.0.tar.gz" "ns" "c" rC1]
          ≠ [cachedDesc selfC2 "ns.c" "/cache/collection/ns.c/ns-c-1.0.0.tar.gz" "ns" "c" rC1]
      ∧ (st2.effects.drop st1.effects.length).all (fun e => !e.isFetch) = true :=
  c2_amended envC2 selfC2 depsC2 stC1 true "/cache" "ns.c"
    "/cache/collection/ns.c/ns-c-1.0.0.tar.gz" "ns" "c" [] rC1
    (by decide) (by decide) (by decide) (by decide) (by decide) (by decide) (by decide)
    (by decide) (by decide) (by decide) (by decide) (by decide)
